import Mathlib

/-!
# Accounting: message processing core

A shallow embedding of the Go packages

* `internal/domain/message` (`Message`, `AmountLine`, `Validate`),
* `internal/domain/rule` (`Key`, `Template`, `Rule`, `Repository`, `NotFoundError`),
* `internal/domain/voucher` (`Entry`, `Voucher`),
* `internal/infrastructure/rule/static` (the seeded rule catalogue),
* `internal/infrastructure/voucher/inmemory` (the map backed stores),
* `internal/app` (`Service.ProcessMessage`, `generateID`),

followed by the properties of the processing workflow.

Conventions of the embedding.

* A Go `string` is a `String`, an `int64` amount is an `Int` (only compared with zero,
  never computed with), a `time.Time` is a `Nat` instant whose zero value is `0`.
* A Go `error` is `Option Error`: `none` is `nil`.
* A Go `map[K]V` is a function `K → Option V`; Go maps are unordered, so two maps are
  the same exactly when they agree at every key.
* A method that reads or writes a collaborator takes the collaborator state and returns
  the new state next to its Go results.
* The two sources of nondeterminism of `ProcessMessage`, the entropy source behind
  `rand.Read` and the clock behind `time.Now`, are inputs collected in `app.Env`.
* The mutexes of the in-memory stores are not modelled: calls are sequential.
-/

set_option autoImplicit false

/-- Instants of `time.Time`; the zero value of the Go type is `0`. -/
abbrev Time := Nat

/-- Go `map[K]V`, as a partial function on keys. -/
abbrev GoMap (κ α : Type) := κ → Option α

namespace GoMap

variable {κ α : Type}

/-- Built by `make(map[K]V)`: no key is present. -/
def empty : GoMap κ α := fun _ => none

/-- Go `m[k] = v`. -/
def set [DecidableEq κ] (m : GoMap κ α) (k : κ) (v : α) : GoMap κ α :=
  fun k' => if k' = k then some v else m k'

/-- Go `delete(m, k)`. -/
def delete [DecidableEq κ] (m : GoMap κ α) (k : κ) : GoMap κ α :=
  fun k' => if k' = k then none else m k'

/-- Go `v, ok := m[k]`: the zero value and `false` when the key is absent. -/
def lookup (m : GoMap κ α) (k : κ) (zero : α) : α × Bool :=
  match m k with
  | some v => (v, true)
  | none => (zero, false)

end GoMap

namespace rule

/-- Go `rule.Key`. -/
structure Key where
  TransType : String
  AmountType : String
deriving DecidableEq, Repr

/-- Go `rule.Template`. -/
structure Template where
  DebitAccount : String
  CreditAccount : String
deriving DecidableEq, Repr

/-- Go `rule.Rule`. -/
structure Rule where
  Key : rule.Key
  Template : rule.Template
deriving DecidableEq, Repr

/-- The zero value `rule.Rule{}`. -/
def Rule.zero : Rule := ⟨⟨"", ""⟩, ⟨"", ""⟩⟩

end rule

/-- Values of the Go `error` interface that the program passes around:
`message.ValidationError`, `rule.NotFoundError`, and any other error value (a storage
failure, a failure of the entropy source), identified by its text. -/
inductive Error where
  | ValidationError (Msg : String)
  | NotFoundError (Key : rule.Key)
  | other (msg : String)
deriving DecidableEq, Repr

namespace rule

/-- Go interface `rule.Repository`: one read operation returning `(Rule, error)`. -/
structure Repository where
  FindByKey : Key → Rule × Option Error

end rule

namespace message

/-- Go `message.AmountLine`. -/
structure AmountLine where
  AmountType : String
  Amount : Int
  Currency : String
deriving DecidableEq, Repr

/-- Go `message.Message`; `Metadata` is the `map[string]string` carried through
unchanged, kept as its list of pairs. -/
structure Message where
  ID : String
  TransType : String
  Amounts : List AmountLine
  OccurredAt : Time
  Metadata : List (String × String)
deriving DecidableEq, Repr

def ErrMissingID : Error := Error.ValidationError "message id is required"
def ErrMissingTransType : Error := Error.ValidationError "trans_type is required"
def ErrNoAmounts : Error := Error.ValidationError "amount lines are required"
def ErrInvalidAmountType : Error := Error.ValidationError "amount_type is required"
def ErrInvalidAmount : Error := Error.ValidationError "amount must be non-zero"

/-- The `for _, line := range m.Amounts` loop of `Validate`. -/
def Validate.loop : List AmountLine → Option Error
  | [] => none
  | line :: rest =>
    if line.AmountType = "" then some ErrInvalidAmountType
    else if line.Amount = 0 then some ErrInvalidAmount
    else Validate.loop rest

/-- Go `Message.Validate`. -/
def Message.Validate (m : Message) : Option Error :=
  if m.ID = "" then some ErrMissingID
  else if m.TransType = "" then some ErrMissingTransType
  else if m.Amounts.length = 0 then some ErrNoAmounts
  else Validate.loop m.Amounts

/-- A line that breaks the amount line invariant: empty amount type or zero amount. -/
def lineInvalid (line : AmountLine) : Bool :=
  decide (line.AmountType = "") || decide (line.Amount = 0)

/-- Reference definition of validation, following the specification's wording:
the first violated requirement, in the order id, transaction type, presence of lines,
then the first invalid line. -/
def ValidateRef (m : Message) : Option Error :=
  if m.ID = "" then some ErrMissingID
  else if m.TransType = "" then some ErrMissingTransType
  else if m.Amounts = [] then some ErrNoAmounts
  else
    match m.Amounts.find? lineInvalid with
    | some line =>
      if line.AmountType = "" then some ErrInvalidAmountType else some ErrInvalidAmount
    | none => none

end message

namespace voucher

/-- Go `voucher.Entry`. -/
structure Entry where
  DebitAccount : String
  CreditAccount : String
  Amount : Int
  Currency : String
  AmountType : String
deriving DecidableEq, Repr

/-- Go `voucher.Voucher`. -/
structure Voucher where
  ID : String
  MessageID : String
  GeneratedAt : Time
  Entries : List Entry
  Metadata : List (String × String)
deriving DecidableEq, Repr

/-- The zero value `voucher.Voucher{}`. -/
def Voucher.zero : Voucher := ⟨"", "", 0, [], []⟩

end voucher

namespace hex

/-- Go `hextable` of `encoding/hex`. -/
def hextable : List Char := "0123456789abcdef".toList

/-- Go `hex.EncodeToString`: two lowercase digits per byte, high nibble first. -/
def EncodeToString (src : List Nat) : String :=
  String.mk (src.flatMap fun v => [hextable.getD (v / 16) '0', hextable.getD (v % 16) '0'])

end hex

namespace app

/-- Go `app.MessageRecord`. -/
structure MessageRecord where
  ID : String
  TransType : String
  ProcessedAt : Time
  LastVoucherID : String
deriving DecidableEq, Repr

/-- The zero value `MessageRecord{}`. -/
def MessageRecord.zero : MessageRecord := ⟨"", "", 0, ""⟩

/-- Go interface `app.VoucherRepository`, over a collaborator state `σ`. Every call may
change the state and may fail. -/
structure VoucherRepository (σ : Type) where
  Save : voucher.Voucher → σ → Option Error × σ
  DeleteByMessageID : String → σ → Option Error × σ
  FindByMessageID : String → σ → (voucher.Voucher × Bool × Option Error) × σ

/-- Go interface `app.MessageStore`, over a collaborator state `σ`. -/
structure MessageStore (σ : Type) where
  Upsert : MessageRecord → σ → Option Error × σ
  FindByID : String → σ → (MessageRecord × Bool × Option Error) × σ

/-- Go `app.Service`. -/
structure Service (σ : Type) where
  ruleRepo : rule.Repository
  voucherRepo : VoucherRepository σ
  messages : MessageStore σ

/-- Go `app.NewService`. -/
def NewService {σ : Type} (ruleRepo : rule.Repository) (voucherRepo : VoucherRepository σ)
    (store : MessageStore σ) : Service σ :=
  { ruleRepo := ruleRepo, voucherRepo := voucherRepo, messages := store }

/-- Go `app.ProcessCommand`. -/
structure ProcessCommand where
  Message : message.Message
  Regenerate : Bool
deriving DecidableEq, Repr

/-- Go `app.ProcessResult`. -/
structure ProcessResult where
  Voucher : voucher.Voucher
  Created : Bool
deriving DecidableEq, Repr

/-- The zero value `ProcessResult{}` returned next to every error. -/
def ProcessResult.zero : ProcessResult := ⟨voucher.Voucher.zero, false⟩

/-- What one call of `ProcessMessage` draws from outside the program: the outcome of
`rand.Read` on the 16 byte buffer (`randErr`, and `randBytes i` for the byte written at
index `i`), and the readings of the two `time.Now()` calls. -/
structure Env where
  randErr : Option Error
  randBytes : Nat → Nat
  now1 : Time
  now2 : Time

/-- Go `generateID`: 16 bytes from the entropy source, hex encoded. -/
def generateID (env : Env) : String × Option Error :=
  match env.randErr with
  | some err => ("", some err)
  | none => (hex.EncodeToString ((List.range 16).map fun i => env.randBytes i % 256), none)

/-- The rule resolution loop of `ProcessMessage` (`for _, line := range cmd.Message.Amounts`),
started with the entries appended so far: the first failing lookup returns its error. -/
def ProcessMessage.resolve (ruleRepo : rule.Repository) (transType : String) :
    List message.AmountLine → List voucher.Entry → Except Error (List voucher.Entry)
  | [], entries => .ok entries
  | line :: rest, entries =>
    match ruleRepo.FindByKey ⟨transType, line.AmountType⟩ with
    | (_, some err) => .error err
    | (r, none) =>
      ProcessMessage.resolve ruleRepo transType rest
        (entries ++ [{ DebitAccount := r.Template.DebitAccount
                       CreditAccount := r.Template.CreditAccount
                       Amount := line.Amount
                       Currency := line.Currency
                       AmountType := line.AmountType }])

/-- The tail of `ProcessMessage` from rule resolution on: resolve, generate the id, build
the voucher, save it, upsert the record. -/
def ProcessMessage.build {σ : Type} (s : Service σ) (env : Env) (cmd : ProcessCommand)
    (st : σ) : (ProcessResult × Option Error) × σ :=
  match ProcessMessage.resolve s.ruleRepo cmd.Message.TransType cmd.Message.Amounts [] with
  | .error err => ((ProcessResult.zero, some err), st)
  | .ok entries =>
    match generateID env with
    | (_, some err) => ((ProcessResult.zero, some err), st)
    | (id, none) =>
      let v : voucher.Voucher :=
        { ID := id
          MessageID := cmd.Message.ID
          GeneratedAt := env.now1
          Entries := entries
          Metadata := cmd.Message.Metadata }
      match s.voucherRepo.Save v st with
      | (some err, st1) => ((ProcessResult.zero, some err), st1)
      | (none, st1) =>
        let record : MessageRecord :=
          { ID := cmd.Message.ID
            TransType := cmd.Message.TransType
            ProcessedAt := env.now2
            LastVoucherID := v.ID }
        match s.messages.Upsert record st1 with
        | (some err, st2) => ((ProcessResult.zero, some err), st2)
        | (none, st2) => (({ Voucher := v, Created := true }, none), st2)

/-- The part of `ProcessMessage` after the fast path: `if cmd.Regenerate` delete the
previous voucher, then continue with `ProcessMessage.build`. -/
def ProcessMessage.regenerate {σ : Type} (s : Service σ) (env : Env) (cmd : ProcessCommand)
    (st : σ) : (ProcessResult × Option Error) × σ :=
  if cmd.Regenerate then
    match s.voucherRepo.DeleteByMessageID cmd.Message.ID st with
    | (some err, st1) => ((ProcessResult.zero, some err), st1)
    | (none, st1) => ProcessMessage.build s env cmd st1
  else ProcessMessage.build s env cmd st

/-- Go `Service.ProcessMessage`. -/
def Service.ProcessMessage {σ : Type} (s : Service σ) (env : Env) (cmd : ProcessCommand)
    (st : σ) : (ProcessResult × Option Error) × σ :=
  match cmd.Message.Validate with
  | some err => ((ProcessResult.zero, some err), st)
  | none =>
    match s.messages.FindByID cmd.Message.ID st with
    | ((_, _, some err), st1) => ((ProcessResult.zero, some err), st1)
    | ((_, seen, none), st1) =>
      -- `seen` is the Go variable `exists`
      if seen && !cmd.Regenerate then
        match s.voucherRepo.FindByMessageID cmd.Message.ID st1 with
        | ((_, _, some err), st2) => ((ProcessResult.zero, some err), st2)
        | ((existingVoucher, found, none), st2) =>
          if found then (({ Voucher := existingVoucher, Created := false }, none), st2)
          else ProcessMessage.regenerate s env cmd st2
      else ProcessMessage.regenerate s env cmd st1

end app

namespace inmemory

/-- Go `inmemory.MessageStore`: the `records` map. -/
structure MessageStore where
  records : GoMap String app.MessageRecord

/-- Go `inmemory.NewMessageStore`. -/
def NewMessageStore : MessageStore := { records := GoMap.empty }

/-- Go `(*MessageStore).Upsert`. -/
def MessageStore.Upsert (s : MessageStore) (record : app.MessageRecord) :
    Option Error × MessageStore :=
  (none, { records := s.records.set record.ID record })

/-- Go `(*MessageStore).FindByID`. -/
def MessageStore.FindByID (s : MessageStore) (id : String) :
    app.MessageRecord × Bool × Option Error :=
  let r := s.records.lookup id app.MessageRecord.zero
  (r.1, r.2, none)

/-- Go `inmemory.VoucherRepository`: the `byMessageID` map. -/
structure VoucherRepository where
  byMessageID : GoMap String voucher.Voucher

/-- Go `inmemory.NewVoucherRepository`. -/
def NewVoucherRepository : VoucherRepository := { byMessageID := GoMap.empty }

/-- Go `(*VoucherRepository).Save`. -/
def VoucherRepository.Save (r : VoucherRepository) (v : voucher.Voucher) :
    Option Error × VoucherRepository :=
  (none, { byMessageID := r.byMessageID.set v.MessageID v })

/-- Go `(*VoucherRepository).DeleteByMessageID`. -/
def VoucherRepository.DeleteByMessageID (r : VoucherRepository) (messageID : String) :
    Option Error × VoucherRepository :=
  (none, { byMessageID := r.byMessageID.delete messageID })

/-- Go `(*VoucherRepository).FindByMessageID`. -/
def VoucherRepository.FindByMessageID (r : VoucherRepository) (messageID : String) :
    voucher.Voucher × Bool × Option Error :=
  let f := r.byMessageID.lookup messageID voucher.Voucher.zero
  (f.1, f.2, none)

/-- The two in-memory collaborators a service is wired to (as in `cmd/api/main.go`). -/
structure Stores where
  voucherRepo : VoucherRepository
  messages : MessageStore

/-- Freshly created stores: `NewVoucherRepository()`, `NewMessageStore()`. -/
def Stores.empty : Stores := { voucherRepo := NewVoucherRepository, messages := NewMessageStore }

/-- The in-memory voucher repository as an `app.VoucherRepository`. -/
def voucherRepoImpl : app.VoucherRepository Stores where
  Save v st := ((st.voucherRepo.Save v).1, { st with voucherRepo := (st.voucherRepo.Save v).2 })
  DeleteByMessageID id st :=
    ((st.voucherRepo.DeleteByMessageID id).1,
      { st with voucherRepo := (st.voucherRepo.DeleteByMessageID id).2 })
  FindByMessageID id st := (st.voucherRepo.FindByMessageID id, st)

/-- The in-memory message store as an `app.MessageStore`. -/
def messageStoreImpl : app.MessageStore Stores where
  Upsert record st :=
    ((st.messages.Upsert record).1, { st with messages := (st.messages.Upsert record).2 })
  FindByID id st := (st.messages.FindByID id, st)

/-- A service over the in-memory stores: `app.NewService(ruleRepo, voucherRepo, store)`. -/
def service (ruleRepo : rule.Repository) : app.Service Stores :=
  app.NewService ruleRepo voucherRepoImpl messageStoreImpl

/-- States of the in-memory stores reachable from freshly created stores by sequential
`ProcessMessage` calls, with any rule catalogue, entropy, clock, message and flag. -/
inductive Reachable : Stores → Prop where
  | init : Reachable Stores.empty
  | step (st : Stores) (ruleRepo : rule.Repository) (env : app.Env)
      (cmd : app.ProcessCommand) :
      Reachable st → Reachable ((service ruleRepo).ProcessMessage env cmd st).2

end inmemory

namespace static

/-- Go `static.Repository`: the `rules` map. -/
structure Repository where
  rules : GoMap rule.Key rule.Rule

/-- Go `defaultRules`. -/
def defaultRules : List rule.Rule :=
  [ { Key := { TransType := "loan_repayplan", AmountType := "principal" }
      Template :=
        { DebitAccount := "1221.01.01应收账款-未到期-应收本金"
          CreditAccount := "1012.X.02其他货币资金-通道/账户-放款" } },
    { Key := { TransType := "loan_repayplan", AmountType := "interest" }
      Template :=
        { DebitAccount := "1221.01.02应收账款-未到期-应收利息"
          CreditAccount := "6001.03.01营业收入-未到期收入-利息收入" } },
    { Key := { TransType := "loan_repayplan", AmountType := "fin_service" }
      Template :=
        { DebitAccount := "1221.01.03应收账款-未到期-应收服务费"
          CreditAccount := "6001.03.02营业收入-未到期收入-服务费收入" } },
    { Key := { TransType := "repay_before_compensate", AmountType := "principal" }
      Template :=
        { DebitAccount := "1221.03应收账款-清分"
          CreditAccount := "1221.02.01应收账款-已到期-应收本金" } },
    { Key := { TransType := "repay_before_compensate", AmountType := "interest" }
      Template :=
        { DebitAccount := "1221.03应收账款-清分"
          CreditAccount := "1221.02.02应收账款-已到期-应收利息" } } ]

/-- Go `static.NewRepository`: an empty map, then `repo.rules[r.Key] = r` for each default
rule in order. -/
def NewRepository : Repository :=
  { rules := defaultRules.foldl (fun rules r => rules.set r.Key r) GoMap.empty }

/-- Go `(*Repository).FindByKey`. -/
def Repository.FindByKey (r : Repository) (key : rule.Key) : rule.Rule × Option Error :=
  match r.rules key with
  | some found => (found, none)
  | none => (rule.Rule.zero, some (Error.NotFoundError key))

/-- A `static.Repository` as a `rule.Repository`. -/
def Repository.toRepository (r : Repository) : rule.Repository :=
  { FindByKey := r.FindByKey }

end static

namespace app

/-- The collaborator operations `ProcessMessage` can call. -/
inductive Call where
  | FindByID
  | FindByMessageID
  | DeleteByMessageID
  | Save
  | Upsert
deriving DecidableEq, Repr

/-- The service `s` with each collaborator operation instrumented to append its name to a
call log kept next to the collaborator state. -/
def Service.recorded {σ : Type} (s : Service σ) : Service (σ × List Call) where
  ruleRepo := s.ruleRepo
  voucherRepo :=
    { Save := fun v st => ((s.voucherRepo.Save v st.1).1,
        ((s.voucherRepo.Save v st.1).2, st.2 ++ [Call.Save]))
      DeleteByMessageID := fun id st => ((s.voucherRepo.DeleteByMessageID id st.1).1,
        ((s.voucherRepo.DeleteByMessageID id st.1).2, st.2 ++ [Call.DeleteByMessageID]))
      FindByMessageID := fun id st => ((s.voucherRepo.FindByMessageID id st.1).1,
        ((s.voucherRepo.FindByMessageID id st.1).2, st.2 ++ [Call.FindByMessageID])) }
  messages :=
    { Upsert := fun record st => ((s.messages.Upsert record st.1).1,
        ((s.messages.Upsert record st.1).2, st.2 ++ [Call.Upsert]))
      FindByID := fun id st => ((s.messages.FindByID id st.1).1,
        ((s.messages.FindByID id st.1).2, st.2 ++ [Call.FindByID])) }

end app

namespace app

/-- The entry `ProcessMessage` appends for an amount line: accounts from the template of
the rule found for `(transType, line.AmountType)`, the rest copied from the line. -/
def entryFor (ruleRepo : rule.Repository) (transType : String) (line : message.AmountLine) :
    voucher.Entry :=
  { DebitAccount := (ruleRepo.FindByKey ⟨transType, line.AmountType⟩).1.Template.DebitAccount
    CreditAccount := (ruleRepo.FindByKey ⟨transType, line.AmountType⟩).1.Template.CreditAccount
    Amount := line.Amount
    Currency := line.Currency
    AmountType := line.AmountType }

/-- The lookup for `(transType, line.AmountType)` fails. -/
def unresolved (ruleRepo : rule.Repository) (transType : String) (line : message.AmountLine) :
    Bool :=
  (ruleRepo.FindByKey ⟨transType, line.AmountType⟩).2.isSome

/-- The voucher `ProcessMessage` builds once every line has resolved and the id is drawn. -/
def builtVoucher (ruleRepo : rule.Repository) (env : Env) (m : message.Message) :
    voucher.Voucher :=
  { ID := (generateID env).1
    MessageID := m.ID
    GeneratedAt := env.now1
    Entries := m.Amounts.map (entryFor ruleRepo m.TransType)
    Metadata := m.Metadata }

/-- The record `ProcessMessage` upserts after saving the built voucher. -/
def builtRecord (env : Env) (m : message.Message) : MessageRecord :=
  { ID := m.ID
    TransType := m.TransType
    ProcessedAt := env.now2
    LastVoucherID := (generateID env).1 }

end app

namespace inmemory

/-- Every stored voucher is filed under its own message id and is the one named by the
ledger record of that id. -/
def Consistent (st : Stores) : Prop :=
  ∀ k v, st.voucherRepo.byMessageID k = some v →
    v.MessageID = k ∧ ∃ record, st.messages.records k = some record ∧
      record.LastVoucherID = v.ID

end inmemory

namespace app

/-- The service `s` with each collaborator operation instrumented to append, to a trace kept
next to the collaborator state, its name together with the error it returned. -/
def Service.traced {σ : Type} (s : Service σ) : Service (σ × List (Call × Option Error)) where
  ruleRepo := s.ruleRepo
  voucherRepo :=
    { Save := fun v st => ((s.voucherRepo.Save v st.1).1,
        ((s.voucherRepo.Save v st.1).2, st.2 ++ [(Call.Save, (s.voucherRepo.Save v st.1).1)]))
      DeleteByMessageID := fun id st => ((s.voucherRepo.DeleteByMessageID id st.1).1,
        ((s.voucherRepo.DeleteByMessageID id st.1).2,
          st.2 ++ [(Call.DeleteByMessageID, (s.voucherRepo.DeleteByMessageID id st.1).1)]))
      FindByMessageID := fun id st => ((s.voucherRepo.FindByMessageID id st.1).1,
        ((s.voucherRepo.FindByMessageID id st.1).2,
          st.2 ++ [(Call.FindByMessageID, (s.voucherRepo.FindByMessageID id st.1).1.2.2)])) }
  messages :=
    { Upsert := fun record st => ((s.messages.Upsert record st.1).1,
        ((s.messages.Upsert record st.1).2,
          st.2 ++ [(Call.Upsert, (s.messages.Upsert record st.1).1)]))
      FindByID := fun id st => ((s.messages.FindByID id st.1).1,
        ((s.messages.FindByID id st.1).2,
          st.2 ++ [(Call.FindByID, (s.messages.FindByID id st.1).1.2.2)])) }

/-- A trace of collaborator calls in which every call succeeded, or in which the only failed
call is the last one and its error is what was returned next to the empty result. -/
def Surfaced (calls : List (Call × Option Error)) (res : ProcessResult × Option Error) : Prop :=
  (∀ x ∈ calls, x.2 = none) ∨
    ∃ pre c e, calls = pre ++ [(c, some e)] ∧ (∀ x ∈ pre, x.2 = none) ∧
      res = (ProcessResult.zero, some e)

/-- The 16 bytes `generateID` reads from the entropy source. -/
def entropyBytes (env : Env) : List Nat :=
  (List.range 16).map fun i => env.randBytes i % 256

end app

/-! ## Sample inputs

Concrete messages, environments and stores on which the theorems below are instantiated. -/

namespace demo

/-- The seeded catalogue, as wired in `cmd/api/main.go`. -/
def catalogue : rule.Repository := static.NewRepository.toRepository

/-- A valid message with one line that the seeded catalogue resolves. -/
def m1 : message.Message :=
  { ID := "m1"
    TransType := "loan_repayplan"
    Amounts := [⟨"principal", 1000, "CNY"⟩]
    OccurredAt := 0
    Metadata := [("source", "lms")] }

/-- A valid message with the id of `m1` whose second line has no seeded rule. -/
def m1Penalty : message.Message :=
  { ID := "m1"
    TransType := "loan_repayplan"
    Amounts := [⟨"principal", 1000, "CNY"⟩, ⟨"penalty", 5, "CNY"⟩]
    OccurredAt := 0
    Metadata := [] }

/-- An invalid message: its only line has a zero amount. -/
def mZero : message.Message :=
  { ID := "m2"
    TransType := "loan_repayplan"
    Amounts := [⟨"principal", 0, "CNY"⟩]
    OccurredAt := 0
    Metadata := [] }

/-- The entropy source delivers the bytes `0, 1, ..., 15`; the clock reads 1, then 2. -/
def env : app.Env := { randErr := none, randBytes := fun i => i, now1 := 1, now2 := 2 }

/-- The entropy source delivers the bytes `16, 17, ..., 31`; the clock reads 3, then 4. -/
def env2 : app.Env := { randErr := none, randBytes := fun i => i + 16, now1 := 3, now2 := 4 }

/-- The entropy source fails. -/
def envFail : app.Env :=
  { randErr := some (Error.other "entropy source unavailable")
    randBytes := fun _ => 0
    now1 := 5
    now2 := 6 }

/-- The in-memory stores after `m1` was processed once on fresh stores. -/
def afterM1 : inmemory.Stores :=
  ((inmemory.service catalogue).ProcessMessage env ⟨m1, false⟩ inmemory.Stores.empty).2

/-- The in-memory stores after `m1` was processed and a regeneration with `m1Penalty`
(same id, one line without a rule) was then attempted. -/
def afterFailedRegenerate : inmemory.Stores :=
  ((inmemory.service catalogue).ProcessMessage env2 ⟨m1Penalty, true⟩ afterM1).2

/-- A valid message whose id is the hex encoding of the bytes `0, 1, ..., 15`. -/
def mHex : message.Message := { m1 with ID := "000102030405060708090a0b0c0d0e0f" }

/-- A valid message with a second id. -/
def m2 : message.Message := { m1 with ID := "m2", Metadata := [] }

/-- A service over the in-memory stores whose voucher repository fails every `Save`,
leaving the stores as they are. -/
def failingSaveService : app.Service inmemory.Stores :=
  { ruleRepo := catalogue
    voucherRepo :=
      { inmemory.voucherRepoImpl with
        Save := fun _ st => (some (Error.other "voucher store unavailable"), st) }
    messages := inmemory.messageStoreImpl }

end demo

/-! ## Validation -/

namespace message

theorem Validate.loop_eq_find (lines : List AmountLine) :
    Validate.loop lines =
      match lines.find? lineInvalid with
      | some line =>
        if line.AmountType = "" then some ErrInvalidAmountType else some ErrInvalidAmount
      | none => none := by
  induction lines with
  | nil => rfl
  | cons line rest ih =>
    by_cases h1 : line.AmountType = ""
    · simp [Validate.loop, lineInvalid, h1]
    · by_cases h2 : line.Amount = 0
      · simp [Validate.loop, lineInvalid, h1, h2]
      · simp [Validate.loop, lineInvalid, h1, h2, ih]

theorem Validate.loop_eq_none_iff (lines : List AmountLine) :
    Validate.loop lines = none ↔
      ∀ line ∈ lines, line.AmountType ≠ "" ∧ line.Amount ≠ 0 := by
  induction lines with
  | nil => simp [Validate.loop]
  | cons line rest ih =>
    by_cases h1 : line.AmountType = ""
    · simp [Validate.loop, h1]
    · by_cases h2 : line.Amount = 0
      · simp [Validate.loop, h1, h2]
      · simp [Validate.loop, h1, h2, ih]

theorem Validate.loop_validation (lines : List AmountLine) (err : Error)
    (h : Validate.loop lines = some err) : ∃ msg, err = Error.ValidationError msg := by
  induction lines with
  | nil => simp [Validate.loop] at h
  | cons line rest ih =>
    unfold Validate.loop at h
    split_ifs at h with h1 h2
    · exact ⟨_, (Option.some.inj h).symm⟩
    · exact ⟨_, (Option.some.inj h).symm⟩
    · exact ih h

theorem Validate.loop_erase (lines : List AmountLine) :
    Validate.loop (lines.map fun l => ⟨l.AmountType, l.Amount, ""⟩) = Validate.loop lines := by
  induction lines with
  | nil => rfl
  | cons line rest ih => simp [Validate.loop, ih]

theorem Message.Validate_eq_none_iff (m : Message) :
    m.Validate = none ↔
      m.ID ≠ "" ∧ m.TransType ≠ "" ∧ m.Amounts ≠ [] ∧
        ∀ line ∈ m.Amounts, line.AmountType ≠ "" ∧ line.Amount ≠ 0 := by
  unfold Message.Validate
  by_cases h1 : m.ID = ""
  · simp [h1]
  · by_cases h2 : m.TransType = ""
    · simp [h1, h2]
    · by_cases h3 : m.Amounts = []
      · simp [h1, h2, h3]
      · have h3' : m.Amounts.length ≠ 0 := by simpa using h3
        simp [h1, h2, h3, h3', Validate.loop_eq_none_iff]

theorem Message.Validate_validation (m : Message) (err : Error)
    (h : m.Validate = some err) : ∃ msg, err = Error.ValidationError msg := by
  unfold Message.Validate at h
  split_ifs at h with h1 h2 h3
  · exact ⟨_, (Option.some.inj h).symm⟩
  · exact ⟨_, (Option.some.inj h).symm⟩
  · exact ⟨_, (Option.some.inj h).symm⟩
  · exact Validate.loop_validation _ _ h

end message

/-- C6: `Message.Validate` agrees with the reference definition (first violated requirement
in the order id, transaction type, presence of lines, first invalid line, where an invalid
line reports its empty amount type before its zero amount); it returns nil exactly when id
and transaction type are non-empty, there is a line, and every line has a non-empty amount
type and a non-zero amount; and its result is unchanged when every currency, the
occurrence time and the metadata are erased. -/
theorem C6_validate_reference (m : message.Message) :
    m.Validate = message.ValidateRef m ∧
    (m.Validate = none ↔
      m.ID ≠ "" ∧ m.TransType ≠ "" ∧ m.Amounts ≠ [] ∧
        ∀ line ∈ m.Amounts, line.AmountType ≠ "" ∧ line.Amount ≠ 0) ∧
    m.Validate =
      message.Message.Validate
        { ID := m.ID
          TransType := m.TransType
          Amounts := m.Amounts.map fun l => ⟨l.AmountType, l.Amount, ""⟩
          OccurredAt := 0
          Metadata := [] } := by
  refine ⟨?_, message.Message.Validate_eq_none_iff m, ?_⟩
  · unfold message.Message.Validate message.ValidateRef
    rw [message.Validate.loop_eq_find]
    by_cases h3 : m.Amounts = []
    · simp [h3]
    · have h3' : m.Amounts.length ≠ 0 := by simpa using h3
      simp [h3, h3']
  · simp [message.Message.Validate, message.Validate.loop_erase]

/-! ## The static rule catalogue -/

/-- C7: the five seeded keys are pairwise distinct; on the repository built by
`NewRepository`, `FindByKey k` returns, for a seeded key, the seeded rule with that key
(so none was overwritten) and no error, and for any other key the zero rule together with
`NotFoundError{Key: k}`. `FindByKey` only reads the `rules` map: it is a function of the
repository and returns no changed repository. -/
theorem C7_static_find_by_key (k : rule.Key) :
    (static.defaultRules.map fun r => r.Key).Nodup ∧
    static.defaultRules.length = 5 ∧
    (if k ∈ static.defaultRules.map (fun r => r.Key) then
      ∃ r, static.NewRepository.FindByKey k = (r, none) ∧ r.Key = k ∧ r ∈ static.defaultRules
    else
      static.NewRepository.FindByKey k = (rule.Rule.zero, some (Error.NotFoundError k))) := by
  refine ⟨by decide, rfl, ?_⟩
  simp only [static.defaultRules, List.map, List.mem_cons, List.mem_singleton,
    List.not_mem_nil, or_false, static.Repository.FindByKey, static.NewRepository,
    List.foldl, GoMap.set, GoMap.empty]
  by_cases h5 : k = ⟨"repay_before_compensate", "interest"⟩
  · subst h5; simp
  by_cases h4 : k = ⟨"repay_before_compensate", "principal"⟩
  · subst h4; simp
  by_cases h3 : k = ⟨"loan_repayplan", "fin_service"⟩
  · subst h3; simp
  by_cases h2 : k = ⟨"loan_repayplan", "interest"⟩
  · subst h2; simp
  by_cases h1 : k = ⟨"loan_repayplan", "principal"⟩
  · subst h1; simp
  simp [h1, h2, h3, h4, h5]

/-! ## Rule resolution -/

namespace app

theorem resolve_ok (ruleRepo : rule.Repository) (transType : String)
    (lines : List message.AmountLine) (acc : List voucher.Entry)
    (h : ∀ line ∈ lines, (ruleRepo.FindByKey ⟨transType, line.AmountType⟩).2 = none) :
    ProcessMessage.resolve ruleRepo transType lines acc =
      .ok (acc ++ lines.map (entryFor ruleRepo transType)) := by
  induction lines generalizing acc with
  | nil => simp [ProcessMessage.resolve]
  | cons line rest ih =>
    have h1 := h line (List.mem_cons_self _ _)
    have h2 : ∀ l ∈ rest, (ruleRepo.FindByKey ⟨transType, l.AmountType⟩).2 = none :=
      fun l hl => h l (List.mem_cons_of_mem _ hl)
    unfold ProcessMessage.resolve
    split
    · rename_i heq
      rw [heq] at h1
      simp at h1
    · rename_i r heq
      rw [ih _ h2]
      simp [entryFor, heq]

theorem resolve_error (ruleRepo : rule.Repository) (transType : String)
    (lines : List message.AmountLine) (acc : List voucher.Entry)
    (line : message.AmountLine) (err : Error)
    (hfirst : lines.find? (unresolved ruleRepo transType) = some line)
    (herr : (ruleRepo.FindByKey ⟨transType, line.AmountType⟩).2 = some err) :
    ProcessMessage.resolve ruleRepo transType lines acc = .error err := by
  induction lines generalizing acc with
  | nil => simp at hfirst
  | cons l rest ih =>
    unfold ProcessMessage.resolve
    by_cases hl : unresolved ruleRepo transType l = true
    · have : l = line := by simpa [List.find?, hl] using hfirst
      subst this
      split
      · rename_i heq
        rw [heq] at herr
        simp at herr
        rw [herr]
      · rename_i heq
        rw [heq] at herr
        simp at herr
    · have hrest : rest.find? (unresolved ruleRepo transType) = some line := by
        simpa [List.find?, hl] using hfirst
      split
      · rename_i heq
        simp [unresolved, heq] at hl
      · exact ih _ hrest

theorem resolve_cases (ruleRepo : rule.Repository) (transType : String)
    (lines : List message.AmountLine) :
    (ProcessMessage.resolve ruleRepo transType lines [] =
        .ok (lines.map (entryFor ruleRepo transType)) ∧
      ∀ line ∈ lines, (ruleRepo.FindByKey ⟨transType, line.AmountType⟩).2 = none) ∨
    ∃ line err, lines.find? (unresolved ruleRepo transType) = some line ∧
      (ruleRepo.FindByKey ⟨transType, line.AmountType⟩).2 = some err ∧
      ProcessMessage.resolve ruleRepo transType lines [] = .error err := by
  cases hf : lines.find? (unresolved ruleRepo transType) with
  | none =>
    left
    have hall : ∀ line ∈ lines, (ruleRepo.FindByKey ⟨transType, line.AmountType⟩).2 = none := by
      intro line hl
      have := List.find?_eq_none.mp hf line hl
      simpa [unresolved] using this
    exact ⟨by simpa using resolve_ok ruleRepo transType lines [] hall, hall⟩
  | some line =>
    right
    have hun : unresolved ruleRepo transType line = true := List.find?_some hf
    obtain ⟨err, herr⟩ := Option.isSome_iff_exists.mp hun
    exact ⟨line, err, rfl, herr, resolve_error ruleRepo transType lines [] line err hf herr⟩

/-! ## The workflow over arbitrary collaborators -/

theorem process_invalid {σ : Type} (s : Service σ) (env : Env) (cmd : ProcessCommand) (st : σ)
    (err : Error) (h : cmd.Message.Validate = some err) :
    s.ProcessMessage env cmd st = ((ProcessResult.zero, some err), st) := by
  simp [Service.ProcessMessage, h]

theorem build_created {σ : Type} (s : Service σ) (env : Env) (cmd : ProcessCommand) (st : σ)
    (hok : (ProcessMessage.build s env cmd st).1.2 = none)
    (hcreated : (ProcessMessage.build s env cmd st).1.1.Created = true) :
    (ProcessMessage.build s env cmd st).1.1.Voucher = builtVoucher s.ruleRepo env cmd.Message ∧
    ∀ line ∈ cmd.Message.Amounts,
      (s.ruleRepo.FindByKey ⟨cmd.Message.TransType, line.AmountType⟩).2 = none := by
  unfold ProcessMessage.build at hok hcreated ⊢
  rcases resolve_cases s.ruleRepo cmd.Message.TransType cmd.Message.Amounts with
    ⟨hres, hall⟩ | ⟨line, err, _, _, hres⟩
  · rw [hres] at hok hcreated ⊢
    refine ⟨?_, hall⟩
    revert hok hcreated
    simp only
    split
    · simp
    · rename_i id hgen
      split
      · simp
      · split
        · simp
        · intro _ _
          simp [builtVoucher, hgen]
  · rw [hres] at hok
    simp at hok

theorem process_created {σ : Type} (s : Service σ) (env : Env) (cmd : ProcessCommand) (st : σ)
    (hok : (s.ProcessMessage env cmd st).1.2 = none)
    (hcreated : (s.ProcessMessage env cmd st).1.1.Created = true) :
    cmd.Message.Validate = none ∧
    (s.ProcessMessage env cmd st).1.1.Voucher = builtVoucher s.ruleRepo env cmd.Message ∧
    ∀ line ∈ cmd.Message.Amounts,
      (s.ruleRepo.FindByKey ⟨cmd.Message.TransType, line.AmountType⟩).2 = none := by
  have hreg : ∀ st0 : σ, (ProcessMessage.regenerate s env cmd st0).1.2 = none →
      (ProcessMessage.regenerate s env cmd st0).1.1.Created = true →
      (ProcessMessage.regenerate s env cmd st0).1.1.Voucher
          = builtVoucher s.ruleRepo env cmd.Message ∧
        ∀ line ∈ cmd.Message.Amounts,
          (s.ruleRepo.FindByKey ⟨cmd.Message.TransType, line.AmountType⟩).2 = none := by
    intro st0
    unfold ProcessMessage.regenerate
    split
    · split
      · simp
      · exact build_created s env cmd _
    · exact build_created s env cmd _
  cases hv : cmd.Message.Validate with
  | some err =>
    rw [process_invalid s env cmd st err hv] at hok
    simp at hok
  | none =>
    refine ⟨rfl, ?_⟩
    revert hok hcreated
    unfold Service.ProcessMessage
    simp only [hv]
    split
    · simp
    · split
      · split
        · simp
        · split
          · simp
          · exact hreg _
      · exact hreg _

end app

/-- C3: when `ProcessMessage` succeeds with `Created = true` (over any collaborators), the
returned voucher has the message's id as `MessageID` and the message's metadata, as many
entries as the message has amount lines, at least one, and for every index `i` the lookup
for the key `(TransType, Amounts[i].AmountType)` succeeded and the `i`-th entry has the
accounts of that rule's template and the amount, currency and amount type of `Amounts[i]`. -/
theorem C3_order_preserving_construction {σ : Type} (s : app.Service σ) (env : app.Env)
    (cmd : app.ProcessCommand) (st : σ)
    (hok : (s.ProcessMessage env cmd st).1.2 = none)
    (hcreated : (s.ProcessMessage env cmd st).1.1.Created = true) :
    (s.ProcessMessage env cmd st).1.1.Voucher.MessageID = cmd.Message.ID ∧
    (s.ProcessMessage env cmd st).1.1.Voucher.Metadata = cmd.Message.Metadata ∧
    (s.ProcessMessage env cmd st).1.1.Voucher.Entries.length = cmd.Message.Amounts.length ∧
    1 ≤ cmd.Message.Amounts.length ∧
    ∀ (i : Nat) (line : message.AmountLine), cmd.Message.Amounts[i]? = some line →
      (s.ruleRepo.FindByKey ⟨cmd.Message.TransType, line.AmountType⟩).2 = none ∧
      (s.ProcessMessage env cmd st).1.1.Voucher.Entries[i]? =
        some
          { DebitAccount :=
              (s.ruleRepo.FindByKey
                ⟨cmd.Message.TransType, line.AmountType⟩).1.Template.DebitAccount
            CreditAccount :=
              (s.ruleRepo.FindByKey
                ⟨cmd.Message.TransType, line.AmountType⟩).1.Template.CreditAccount
            Amount := line.Amount
            Currency := line.Currency
            AmountType := line.AmountType } := by
  obtain ⟨hvalid, hv, hall⟩ := app.process_created s env cmd st hok hcreated
  have hne := ((message.Message.Validate_eq_none_iff _).mp hvalid).2.2.1
  rw [hv]
  refine ⟨rfl, rfl, by simp [app.builtVoucher], ?_, ?_⟩
  · exact Nat.one_le_iff_ne_zero.mpr (by simpa using hne)
  · intro i line hi
    refine ⟨hall line (List.getElem?_mem hi), ?_⟩
    simp [app.builtVoucher, List.getElem?_map, hi, app.entryFor]

/-- C3 instantiated: `m1` processed on fresh in-memory stores with the seeded catalogue. -/
theorem C3_order_preserving_construction_witness :
    ((inmemory.service demo.catalogue).ProcessMessage demo.env ⟨demo.m1, false⟩
        inmemory.Stores.empty).1.2 = none ∧
    ((inmemory.service demo.catalogue).ProcessMessage demo.env ⟨demo.m1, false⟩
        inmemory.Stores.empty).1.1.Created = true ∧
    ((inmemory.service demo.catalogue).ProcessMessage demo.env ⟨demo.m1, false⟩
        inmemory.Stores.empty).1.1.Voucher.Entries[0]? =
      some
        { DebitAccount := "1221.01.01应收账款-未到期-应收本金"
          CreditAccount := "1012.X.02其他货币资金-通道/账户-放款"
          Amount := 1000
          Currency := "CNY"
          AmountType := "principal" } :=
  ⟨by decide, by decide,
    ((C3_order_preserving_construction (inmemory.service demo.catalogue) demo.env
      ⟨demo.m1, false⟩ inmemory.Stores.empty (by decide) (by decide)).2.2.2.2
        0 ⟨"principal", 1000, "CNY"⟩ rfl).2⟩

/-- C5: for an invalid message (empty id, empty transaction type, no amount line, or a line
with empty amount type or zero amount), with either flag and over any collaborators in any
state, `ProcessMessage` returns a `ValidationError` next to the empty result and the
collaborator state it was given; with call-recording collaborators the call log is
unchanged, so no ledger or voucher store operation was called. -/
theorem C5_validation_precedes_effects {σ : Type} (s : app.Service σ) (env : app.Env)
    (m : message.Message) (regenerate : Bool) (st : σ) (log : List app.Call)
    (hinvalid : m.ID = "" ∨ m.TransType = "" ∨ m.Amounts = [] ∨
      ∃ line ∈ m.Amounts, line.AmountType = "" ∨ line.Amount = 0) :
    (∃ msg, s.ProcessMessage env ⟨m, regenerate⟩ st =
      ((app.ProcessResult.zero, some (Error.ValidationError msg)), st)) ∧
    (s.recorded.ProcessMessage env ⟨m, regenerate⟩ (st, log)).2 = (st, log) := by
  have hne : m.Validate ≠ none := by
    intro hnone
    obtain ⟨h1, h2, h3, h4⟩ := (message.Message.Validate_eq_none_iff m).mp hnone
    rcases hinvalid with h | h | h | ⟨line, hl, h | h⟩
    · exact h1 h
    · exact h2 h
    · exact h3 h
    · exact (h4 line hl).1 h
    · exact (h4 line hl).2 h
  obtain ⟨err, herr⟩ := Option.ne_none_iff_exists'.mp hne
  obtain ⟨msg, hmsg⟩ := message.Message.Validate_validation m err herr
  subst hmsg
  refine ⟨⟨msg, app.process_invalid s env ⟨m, regenerate⟩ st _ herr⟩, ?_⟩
  rw [app.process_invalid s.recorded env ⟨m, regenerate⟩ (st, log) _ herr]

/-- C5 instantiated: the zero-amount message on the stores left by processing `m1`. -/
theorem C5_validation_precedes_effects_witness :
    (demo.mZero.ID = "" ∨ demo.mZero.TransType = "" ∨ demo.mZero.Amounts = [] ∨
      ∃ line ∈ demo.mZero.Amounts, line.AmountType = "" ∨ line.Amount = 0) ∧
    (∃ msg, (inmemory.service demo.catalogue).ProcessMessage demo.env ⟨demo.mZero, true⟩
        demo.afterM1 =
      ((app.ProcessResult.zero, some (Error.ValidationError msg)), demo.afterM1)) :=
  ⟨by decide,
    (C5_validation_precedes_effects (inmemory.service demo.catalogue) demo.env demo.mZero true
      demo.afterM1 [] (by decide)).1⟩

/-! ## The workflow over the in-memory stores -/

namespace inmemory

/-- Rule resolution starts in the stores left by `DeleteByMessageID` when `Regenerate` is
set, and in the given stores otherwise. -/
theorem regenerate_eq (ruleRepo : rule.Repository) (env : app.Env) (cmd : app.ProcessCommand)
    (st : Stores) :
    app.ProcessMessage.regenerate (service ruleRepo) env cmd st =
      app.ProcessMessage.build (service ruleRepo) env cmd
        (if cmd.Regenerate then
          { st with voucherRepo := ⟨st.voucherRepo.byMessageID.delete cmd.Message.ID⟩ }
        else st) := by
  unfold app.ProcessMessage.regenerate
  by_cases h : cmd.Regenerate = true
  · simp [h, service, app.NewService, voucherRepoImpl, VoucherRepository.DeleteByMessageID]
  · simp [h]

theorem process_fast (ruleRepo : rule.Repository) (env : app.Env) (cmd : app.ProcessCommand)
    (st : Stores) (record : app.MessageRecord) (v : voucher.Voucher)
    (hvalid : cmd.Message.Validate = none) (hflag : cmd.Regenerate = false)
    (hrecord : st.messages.records cmd.Message.ID = some record)
    (hvoucher : st.voucherRepo.byMessageID cmd.Message.ID = some v) :
    (service ruleRepo).ProcessMessage env cmd st = (({ Voucher := v, Created := false }, none), st) := by
  simp [app.Service.ProcessMessage, hvalid, hflag, service, app.NewService, messageStoreImpl,
    voucherRepoImpl, MessageStore.FindByID, VoucherRepository.FindByMessageID, GoMap.lookup,
    hrecord, hvoucher]

theorem process_slow (ruleRepo : rule.Repository) (env : app.Env) (cmd : app.ProcessCommand)
    (st : Stores) (hvalid : cmd.Message.Validate = none)
    (hslow : cmd.Regenerate = true ∨ st.messages.records cmd.Message.ID = none ∨
      st.voucherRepo.byMessageID cmd.Message.ID = none) :
    (service ruleRepo).ProcessMessage env cmd st =
      app.ProcessMessage.build (service ruleRepo) env cmd
        (if cmd.Regenerate then
          { st with voucherRepo := ⟨st.voucherRepo.byMessageID.delete cmd.Message.ID⟩ }
        else st) := by
  rw [← regenerate_eq]
  unfold app.Service.ProcessMessage
  simp only [hvalid]
  rcases hslow with h | h | h
  · simp [h, service, app.NewService, messageStoreImpl, MessageStore.FindByID]
  · simp [h, service, app.NewService, messageStoreImpl, MessageStore.FindByID, GoMap.lookup]
  · by_cases hr : cmd.Regenerate = true
    · simp [hr, service, app.NewService, messageStoreImpl, MessageStore.FindByID]
    · cases hrec : st.messages.records cmd.Message.ID with
      | none =>
        simp [service, app.NewService, messageStoreImpl, MessageStore.FindByID, GoMap.lookup,
          hrec]
      | some record =>
        simp [hr, h, service, app.NewService, messageStoreImpl, MessageStore.FindByID,
          GoMap.lookup, hrec, voucherRepoImpl, VoucherRepository.FindByMessageID]

theorem build_resolve_error (ruleRepo : rule.Repository) (env : app.Env)
    (cmd : app.ProcessCommand) (st : Stores) (err : Error)
    (h : app.ProcessMessage.resolve ruleRepo cmd.Message.TransType cmd.Message.Amounts [] =
      .error err) :
    app.ProcessMessage.build (service ruleRepo) env cmd st =
      ((app.ProcessResult.zero, some err), st) := by
  simp [app.ProcessMessage.build, service, app.NewService, h]

theorem build_generate_error (ruleRepo : rule.Repository) (env : app.Env)
    (cmd : app.ProcessCommand) (st : Stores) (err : Error)
    (hresolved : ∀ line ∈ cmd.Message.Amounts,
      (ruleRepo.FindByKey ⟨cmd.Message.TransType, line.AmountType⟩).2 = none)
    (hrand : env.randErr = some err) :
    app.ProcessMessage.build (service ruleRepo) env cmd st =
      ((app.ProcessResult.zero, some err), st) := by
  have h := app.resolve_ok ruleRepo cmd.Message.TransType cmd.Message.Amounts [] hresolved
  simp [app.ProcessMessage.build, service, app.NewService, h, app.generateID, hrand]

theorem build_ok (ruleRepo : rule.Repository) (env : app.Env)
    (cmd : app.ProcessCommand) (st : Stores)
    (hresolved : ∀ line ∈ cmd.Message.Amounts,
      (ruleRepo.FindByKey ⟨cmd.Message.TransType, line.AmountType⟩).2 = none)
    (hrand : env.randErr = none) :
    app.ProcessMessage.build (service ruleRepo) env cmd st =
      (({ Voucher := app.builtVoucher ruleRepo env cmd.Message, Created := true }, none),
        { voucherRepo :=
            ⟨st.voucherRepo.byMessageID.set cmd.Message.ID
              (app.builtVoucher ruleRepo env cmd.Message)⟩
          messages :=
            ⟨st.messages.records.set cmd.Message.ID (app.builtRecord env cmd.Message)⟩ }) := by
  have h := app.resolve_ok ruleRepo cmd.Message.TransType cmd.Message.Amounts [] hresolved
  simp [app.ProcessMessage.build, service, app.NewService, h, app.generateID, hrand,
    voucherRepoImpl, messageStoreImpl, VoucherRepository.Save, MessageStore.Upsert,
    app.builtVoucher, app.builtRecord]

end inmemory

namespace inmemory

/-- The four outcomes of `ProcessMessage` over the in-memory stores: validation failure,
replay of the stored voucher, failure after the fast path (rule lookup or id generation),
creation. -/
theorem process_cases (ruleRepo : rule.Repository) (env : app.Env) (cmd : app.ProcessCommand)
    (st : Stores) :
    (∃ err, cmd.Message.Validate = some err ∧
      (service ruleRepo).ProcessMessage env cmd st = ((app.ProcessResult.zero, some err), st)) ∨
    (∃ record v, cmd.Message.Validate = none ∧ cmd.Regenerate = false ∧
      st.messages.records cmd.Message.ID = some record ∧
      st.voucherRepo.byMessageID cmd.Message.ID = some v ∧
      (service ruleRepo).ProcessMessage env cmd st =
        (({ Voucher := v, Created := false }, none), st)) ∨
    (∃ err, cmd.Message.Validate = none ∧
      (cmd.Regenerate = true ∨ st.messages.records cmd.Message.ID = none ∨
        st.voucherRepo.byMessageID cmd.Message.ID = none) ∧
      (service ruleRepo).ProcessMessage env cmd st =
        ((app.ProcessResult.zero, some err),
          if cmd.Regenerate then
            { st with voucherRepo := ⟨st.voucherRepo.byMessageID.delete cmd.Message.ID⟩ }
          else st)) ∨
    (cmd.Message.Validate = none ∧
      (cmd.Regenerate = true ∨ st.messages.records cmd.Message.ID = none ∨
        st.voucherRepo.byMessageID cmd.Message.ID = none) ∧
      (∀ line ∈ cmd.Message.Amounts,
        (ruleRepo.FindByKey ⟨cmd.Message.TransType, line.AmountType⟩).2 = none) ∧
      env.randErr = none ∧
      (service ruleRepo).ProcessMessage env cmd st =
        (({ Voucher := app.builtVoucher ruleRepo env cmd.Message, Created := true }, none),
          { voucherRepo :=
              ⟨(if cmd.Regenerate then st.voucherRepo.byMessageID.delete cmd.Message.ID
                else st.voucherRepo.byMessageID).set cmd.Message.ID
                (app.builtVoucher ruleRepo env cmd.Message)⟩
            messages :=
              ⟨st.messages.records.set cmd.Message.ID
                (app.builtRecord env cmd.Message)⟩ })) := by
  cases hvalid : cmd.Message.Validate with
  | some err => exact Or.inl ⟨err, rfl, app.process_invalid _ env cmd st err hvalid⟩
  | none =>
    right
    by_cases hslow : cmd.Regenerate = true ∨ st.messages.records cmd.Message.ID = none ∨
        st.voucherRepo.byMessageID cmd.Message.ID = none
    · right
      rw [process_slow ruleRepo env cmd st hvalid hslow]
      rcases app.resolve_cases ruleRepo cmd.Message.TransType cmd.Message.Amounts with
        ⟨_, hall⟩ | ⟨line, err, _, _, hres⟩
      · cases hrand : env.randErr with
        | some err =>
          exact Or.inl ⟨err, rfl, hslow, build_generate_error ruleRepo env cmd _ err hall hrand⟩
        | none =>
          refine Or.inr ⟨rfl, hslow, hall, rfl, ?_⟩
          rw [build_ok ruleRepo env cmd _ hall hrand]
          by_cases hr : cmd.Regenerate = true <;> simp [hr]
      · exact Or.inl ⟨err, rfl, hslow, build_resolve_error ruleRepo env cmd _ err hres⟩
    · left
      simp only [not_or] at hslow
      obtain ⟨hflag, hrec, hvo⟩ := hslow
      obtain ⟨record, hrecord⟩ := Option.ne_none_iff_exists'.mp hrec
      obtain ⟨v, hv⟩ := Option.ne_none_iff_exists'.mp hvo
      exact ⟨record, v, rfl, by simpa using hflag, hrecord, hv,
        process_fast ruleRepo env cmd st record v hvalid (by simpa using hflag) hrecord hv⟩

theorem consistent_step (ruleRepo : rule.Repository) (env : app.Env)
    (cmd : app.ProcessCommand) (st : Stores) (h : Consistent st) :
    Consistent ((service ruleRepo).ProcessMessage env cmd st).2 := by
  rcases process_cases ruleRepo env cmd st with
    ⟨err, _, heq⟩ | ⟨record, v, _, _, _, _, heq⟩ | ⟨err, _, _, heq⟩ | ⟨_, _, _, _, heq⟩
  · rw [heq]; exact h
  · rw [heq]; exact h
  · rw [heq]
    by_cases hr : cmd.Regenerate = true
    · simp only [hr, if_true]
      intro k v hk
      by_cases hkid : k = cmd.Message.ID
      · simp [GoMap.delete, hkid] at hk
      · simp only [GoMap.delete, hkid, if_false] at hk
        exact h k v hk
    · simp only [hr]
      exact h
  · rw [heq]
    intro k v hk
    by_cases hkid : k = cmd.Message.ID
    · subst hkid
      simp only [GoMap.set, if_true] at hk
      have hv : app.builtVoucher ruleRepo env cmd.Message = v := Option.some.inj hk
      subst hv
      exact ⟨rfl, app.builtRecord env cmd.Message, by simp [GoMap.set], rfl⟩
    · simp only [GoMap.set, hkid, if_false] at hk ⊢
      by_cases hr : cmd.Regenerate = true
      · simp only [hr, if_true, GoMap.delete, hkid, if_false] at hk
        exact h k v hk
      · simp only [hr] at hk
        exact h k v hk

theorem reachable_consistent (st : Stores) (h : Reachable st) : Consistent st := by
  induction h with
  | init =>
    intro k v hk
    simp [Stores.empty, NewVoucherRepository, GoMap.empty] at hk
  | step st ruleRepo env cmd _ ih => exact consistent_step ruleRepo env cmd st ih

end inmemory

theorem GoMap.delete_absent {κ α : Type} [DecidableEq κ] (m : GoMap κ α) (k : κ)
    (h : m k = none) : m.delete k = m := by
  funext k'
  by_cases hk : k' = k
  · simp [GoMap.delete, hk, h]
  · simp [GoMap.delete, hk]

/-- C1: over the in-memory stores, for every rule catalogue, state and message `m`, if
`ProcessMessage(m, Regenerate=false)` succeeds, then an immediately following
`ProcessMessage(m, Regenerate=false)`, whatever its entropy and clock, succeeds with
`Created = false` and returns a voucher with the id of the voucher returned first. -/
theorem C1_idempotent_replay (ruleRepo : rule.Repository) (env1 env2 : app.Env)
    (m : message.Message) (st : inmemory.Stores)
    (hok : ((inmemory.service ruleRepo).ProcessMessage env1 ⟨m, false⟩ st).1.2 = none) :
    ((inmemory.service ruleRepo).ProcessMessage env2 ⟨m, false⟩
      ((inmemory.service ruleRepo).ProcessMessage env1 ⟨m, false⟩ st).2).1.2 = none ∧
    ((inmemory.service ruleRepo).ProcessMessage env2 ⟨m, false⟩
      ((inmemory.service ruleRepo).ProcessMessage env1 ⟨m, false⟩ st).2).1.1.Created = false ∧
    ((inmemory.service ruleRepo).ProcessMessage env2 ⟨m, false⟩
      ((inmemory.service ruleRepo).ProcessMessage env1 ⟨m, false⟩ st).2).1.1.Voucher.ID =
      ((inmemory.service ruleRepo).ProcessMessage env1 ⟨m, false⟩ st).1.1.Voucher.ID := by
  rcases inmemory.process_cases ruleRepo env1 ⟨m, false⟩ st with
    ⟨err, _, heq⟩ | ⟨record, v, hvalid, _, hrec, hv, heq⟩ | ⟨err, _, _, heq⟩ |
    ⟨hvalid, _, _, _, heq⟩
  · rw [heq] at hok; simp at hok
  · rw [heq]
    simp only
    rw [inmemory.process_fast ruleRepo env2 ⟨m, false⟩ st record v hvalid rfl hrec hv]
    exact ⟨rfl, rfl, rfl⟩
  · rw [heq] at hok; simp at hok
  · rw [heq]
    simp only
    rw [inmemory.process_fast ruleRepo env2 ⟨m, false⟩ _ (app.builtRecord env1 m)
      (app.builtVoucher ruleRepo env1 m) hvalid rfl (by simp [GoMap.set])
      (by simp [GoMap.set])]
    exact ⟨rfl, rfl, rfl⟩

/-- C1 instantiated: `m1` processed twice on fresh stores, with different entropy. -/
theorem C1_idempotent_replay_witness :
    ((inmemory.service demo.catalogue).ProcessMessage demo.env ⟨demo.m1, false⟩
      inmemory.Stores.empty).1.2 = none ∧
    ((inmemory.service demo.catalogue).ProcessMessage demo.env2 ⟨demo.m1, false⟩
      ((inmemory.service demo.catalogue).ProcessMessage demo.env ⟨demo.m1, false⟩
        inmemory.Stores.empty).2).1.1.Created = false ∧
    ((inmemory.service demo.catalogue).ProcessMessage demo.env2 ⟨demo.m1, false⟩
      ((inmemory.service demo.catalogue).ProcessMessage demo.env ⟨demo.m1, false⟩
        inmemory.Stores.empty).2).1.1.Voucher.ID =
      ((inmemory.service demo.catalogue).ProcessMessage demo.env ⟨demo.m1, false⟩
        inmemory.Stores.empty).1.1.Voucher.ID :=
  ⟨by decide,
    (C1_idempotent_replay demo.catalogue demo.env demo.env2 demo.m1 inmemory.Stores.empty
      (by decide)).2⟩

/-- C9: in every state of the in-memory stores reachable from fresh stores by
`ProcessMessage` calls, for every message whose id has no ledger record, processing with
`Regenerate=true` and with `Regenerate=false` under the same catalogue, entropy and clock
return the same result and leave the same stores. -/
theorem C9_regenerate_unobservable_when_unseen (ruleRepo : rule.Repository) (env : app.Env)
    (m : message.Message) (st : inmemory.Stores)
    (hreach : inmemory.Reachable st)
    (hunseen : st.messages.records m.ID = none) :
    (inmemory.service ruleRepo).ProcessMessage env ⟨m, true⟩ st =
      (inmemory.service ruleRepo).ProcessMessage env ⟨m, false⟩ st := by
  have habsent : st.voucherRepo.byMessageID m.ID = none := by
    cases hv : st.voucherRepo.byMessageID m.ID with
    | none => rfl
    | some v =>
      obtain ⟨_, record, hrec, _⟩ := inmemory.reachable_consistent st hreach m.ID v hv
      rw [hunseen] at hrec
      simp at hrec
  cases hvalid : m.Validate with
  | some err =>
    rw [app.process_invalid _ env ⟨m, true⟩ st err hvalid,
      app.process_invalid _ env ⟨m, false⟩ st err hvalid]
  | none =>
    rw [inmemory.process_slow ruleRepo env ⟨m, true⟩ st hvalid (Or.inl rfl),
      inmemory.process_slow ruleRepo env ⟨m, false⟩ st hvalid (Or.inr (Or.inl hunseen))]
    simp only [if_true, Bool.false_eq_true, if_false]
    rw [GoMap.delete_absent _ _ habsent]
    rfl

/-- C9 instantiated: a message with an unseen id on the stores left by processing `m1`. -/
theorem C9_regenerate_unobservable_when_unseen_witness :
    inmemory.Reachable demo.afterM1 ∧
    demo.afterM1.messages.records "m9" = none ∧
    (inmemory.service demo.catalogue).ProcessMessage demo.env2
        ⟨{ demo.m1 with ID := "m9" }, true⟩ demo.afterM1 =
      (inmemory.service demo.catalogue).ProcessMessage demo.env2
        ⟨{ demo.m1 with ID := "m9" }, false⟩ demo.afterM1 :=
  ⟨inmemory.Reachable.step _ _ _ _ inmemory.Reachable.init, by decide,
    C9_regenerate_unobservable_when_unseen demo.catalogue demo.env2 { demo.m1 with ID := "m9" }
      demo.afterM1 (inmemory.Reachable.step _ _ _ _ inmemory.Reachable.init) (by decide)⟩

/-- C10: over the in-memory stores, when `ProcessMessage(m, r)` succeeds with
`Created = true` and voucher `v`, then in the resulting state `FindByMessageID(m.ID)`
returns `v` with `found = true`, and `FindByID(m.ID)` returns `found = true` with a record
whose `ID` is `m.ID`, whose `TransType` is `m.TransType` and whose `LastVoucherID` is
`v.ID`. -/
theorem C10_persist_and_record (ruleRepo : rule.Repository) (env : app.Env)
    (m : message.Message) (r : Bool) (st : inmemory.Stores)
    (hok : ((inmemory.service ruleRepo).ProcessMessage env ⟨m, r⟩ st).1.2 = none)
    (hcreated : ((inmemory.service ruleRepo).ProcessMessage env ⟨m, r⟩ st).1.1.Created = true) :
    ((inmemory.service ruleRepo).ProcessMessage env ⟨m, r⟩ st).2.voucherRepo.FindByMessageID
        m.ID =
      (((inmemory.service ruleRepo).ProcessMessage env ⟨m, r⟩ st).1.1.Voucher, true, none) ∧
    ∃ record,
      ((inmemory.service ruleRepo).ProcessMessage env ⟨m, r⟩ st).2.messages.FindByID m.ID =
        (record, true, none) ∧
      record.ID = m.ID ∧ record.TransType = m.TransType ∧
      record.LastVoucherID =
        ((inmemory.service ruleRepo).ProcessMessage env ⟨m, r⟩ st).1.1.Voucher.ID := by
  rcases inmemory.process_cases ruleRepo env ⟨m, r⟩ st with
    ⟨err, _, heq⟩ | ⟨record, v, _, _, _, _, heq⟩ | ⟨err, _, _, heq⟩ | ⟨_, _, _, _, heq⟩
  · rw [heq] at hok; simp at hok
  · rw [heq] at hcreated; simp at hcreated
  · rw [heq] at hok; simp at hok
  · rw [heq]
    refine ⟨by simp [inmemory.VoucherRepository.FindByMessageID, GoMap.lookup, GoMap.set],
      app.builtRecord env m, ?_, rfl, rfl, rfl⟩
    simp [inmemory.MessageStore.FindByID, GoMap.lookup, GoMap.set]

/-- C10 instantiated: regenerating `m1` on the stores left by processing `m1`. -/
theorem C10_persist_and_record_witness :
    ((inmemory.service demo.catalogue).ProcessMessage demo.env2 ⟨demo.m1, true⟩
      demo.afterM1).1.2 = none ∧
    ((inmemory.service demo.catalogue).ProcessMessage demo.env2 ⟨demo.m1, true⟩
      demo.afterM1).1.1.Created = true ∧
    ((inmemory.service demo.catalogue).ProcessMessage demo.env2 ⟨demo.m1, true⟩
        demo.afterM1).2.voucherRepo.FindByMessageID demo.m1.ID =
      (((inmemory.service demo.catalogue).ProcessMessage demo.env2 ⟨demo.m1, true⟩
        demo.afterM1).1.1.Voucher, true, none) :=
  ⟨by decide, by decide,
    (C10_persist_and_record demo.catalogue demo.env2 demo.m1 true demo.afterM1
      (by decide) (by decide)).1⟩

/-- C2, as stated, fails: regenerating `m1` with the entropy source delivering the same 16
bytes as at the first processing succeeds with `Created = true` but returns a voucher with
the same id as the stored one; and when the entropy source fails the regeneration does not
succeed at all. -/
theorem C2_regenerate_same_id :
    demo.m1.Validate = none ∧
    (∀ line ∈ demo.m1.Amounts,
      (demo.catalogue.FindByKey ⟨demo.m1.TransType, line.AmountType⟩).2 = none) ∧
    ((inmemory.service demo.catalogue).ProcessMessage demo.env ⟨demo.m1, false⟩
      inmemory.Stores.empty).1.2 = none ∧
    demo.afterM1.voucherRepo.byMessageID demo.m1.ID =
      some ((inmemory.service demo.catalogue).ProcessMessage demo.env ⟨demo.m1, false⟩
        inmemory.Stores.empty).1.1.Voucher ∧
    ((inmemory.service demo.catalogue).ProcessMessage demo.env ⟨demo.m1, true⟩
      demo.afterM1).1.2 = none ∧
    ((inmemory.service demo.catalogue).ProcessMessage demo.env ⟨demo.m1, true⟩
      demo.afterM1).1.1.Created = true ∧
    ((inmemory.service demo.catalogue).ProcessMessage demo.env ⟨demo.m1, true⟩
      demo.afterM1).1.1.Voucher.ID =
      ((inmemory.service demo.catalogue).ProcessMessage demo.env ⟨demo.m1, false⟩
        inmemory.Stores.empty).1.1.Voucher.ID ∧
    ((inmemory.service demo.catalogue).ProcessMessage demo.envFail ⟨demo.m1, true⟩
      demo.afterM1).1.2 = some (Error.other "entropy source unavailable") := by
  refine ⟨by decide, by decide, by decide, by decide, by decide, by decide, by decide,
    by decide⟩

/-- C2, amended: for a valid message `m` whose lines all resolve, in a reachable state of
the in-memory stores holding voucher `v1` for `m.ID`, if the entropy source does not fail
then `ProcessMessage(m, Regenerate=true)` succeeds with `Created = true` and returns a
voucher `v2` whose id is the generated id (so it differs from `v1.ID` exactly when the
generated id does), with `v2.MessageID = v1.MessageID = m.ID` and with the entries derived
from `m`'s lines, in order, under the catalogue. -/
theorem C2_regenerate_new_artifact (ruleRepo : rule.Repository) (env : app.Env)
    (m : message.Message) (st : inmemory.Stores) (v1 : voucher.Voucher)
    (hvalid : m.Validate = none)
    (hresolved : ∀ line ∈ m.Amounts,
      (ruleRepo.FindByKey ⟨m.TransType, line.AmountType⟩).2 = none)
    (hreach : inmemory.Reachable st)
    (hstored : st.voucherRepo.byMessageID m.ID = some v1)
    (hrand : env.randErr = none) :
    ((inmemory.service ruleRepo).ProcessMessage env ⟨m, true⟩ st).1.2 = none ∧
    ((inmemory.service ruleRepo).ProcessMessage env ⟨m, true⟩ st).1.1.Created = true ∧
    ((inmemory.service ruleRepo).ProcessMessage env ⟨m, true⟩ st).1.1.Voucher.ID =
      (app.generateID env).1 ∧
    (((inmemory.service ruleRepo).ProcessMessage env ⟨m, true⟩ st).1.1.Voucher.ID ≠ v1.ID ↔
      (app.generateID env).1 ≠ v1.ID) ∧
    ((inmemory.service ruleRepo).ProcessMessage env ⟨m, true⟩ st).1.1.Voucher.MessageID =
      m.ID ∧
    v1.MessageID = m.ID ∧
    ((inmemory.service ruleRepo).ProcessMessage env ⟨m, true⟩ st).1.1.Voucher.Entries =
      m.Amounts.map fun line =>
        { DebitAccount :=
            (ruleRepo.FindByKey ⟨m.TransType, line.AmountType⟩).1.Template.DebitAccount
          CreditAccount :=
            (ruleRepo.FindByKey ⟨m.TransType, line.AmountType⟩).1.Template.CreditAccount
          Amount := line.Amount
          Currency := line.Currency
          AmountType := line.AmountType } := by
  have hv1 := (inmemory.reachable_consistent st hreach m.ID v1 hstored).1
  rw [inmemory.process_slow ruleRepo env ⟨m, true⟩ st hvalid (Or.inl rfl),
    inmemory.build_ok ruleRepo env ⟨m, true⟩ _ hresolved hrand]
  exact ⟨rfl, rfl, rfl, Iff.rfl, rfl, hv1, rfl⟩

/-- C2 (amended) instantiated: regenerating `m1`, with fresh entropy, on the stores left by
processing `m1`. -/
theorem C2_regenerate_new_artifact_witness :
    demo.m1.Validate = none ∧
    inmemory.Reachable demo.afterM1 ∧
    demo.afterM1.voucherRepo.byMessageID demo.m1.ID =
      some (app.builtVoucher demo.catalogue demo.env demo.m1) ∧
    ((inmemory.service demo.catalogue).ProcessMessage demo.env2 ⟨demo.m1, true⟩
      demo.afterM1).1.1.Voucher.ID = (app.generateID demo.env2).1 ∧
    (app.generateID demo.env2).1 = "101112131415161718191a1b1c1d1e1f" ∧
    (app.builtVoucher demo.catalogue demo.env demo.m1).ID =
      "000102030405060708090a0b0c0d0e0f" :=
  ⟨by decide, inmemory.Reachable.step _ _ _ _ inmemory.Reachable.init, by decide,
    (C2_regenerate_new_artifact demo.catalogue demo.env2 demo.m1 demo.afterM1
      (app.builtVoucher demo.catalogue demo.env demo.m1) (by decide) (by decide)
      (inmemory.Reachable.step _ _ _ _ inmemory.Reachable.init) (by decide) (by decide)).2.2.1,
    by decide, by decide⟩

theorem static.unresolved_eq (catalogue : static.Repository) (transType : String) :
    app.unresolved catalogue.toRepository transType =
      fun l => (catalogue.rules ⟨transType, l.AmountType⟩).isNone := by
  funext l
  simp only [app.unresolved, static.Repository.toRepository, static.Repository.FindByKey]
  cases catalogue.rules ⟨transType, l.AmountType⟩ <;> rfl

/-- C4: over the in-memory stores and a map backed catalogue, for a valid message whose
first amount line (in input order) without a registered rule is `line`, with either flag
and in every state: every key of the voucher store afterwards is absent or holds what it
held before (nothing is gained or replaced), the ledger is unchanged, and unless the call
returns on the fast path (`Regenerate = false`, record and voucher both present) it fails
with the empty result and `NotFoundError` carrying the key `(m.TransType, line.AmountType)`. -/
theorem C4_all_or_nothing (catalogue : static.Repository) (env : app.Env)
    (m : message.Message) (regenerate : Bool) (st : inmemory.Stores)
    (line : message.AmountLine)
    (hvalid : m.Validate = none)
    (hfirst : m.Amounts.find? (fun l => (catalogue.rules ⟨m.TransType, l.AmountType⟩).isNone)
      = some line) :
    (∀ k,
      ((inmemory.service catalogue.toRepository).ProcessMessage env ⟨m, regenerate⟩
          st).2.voucherRepo.byMessageID k = none ∨
      ((inmemory.service catalogue.toRepository).ProcessMessage env ⟨m, regenerate⟩
          st).2.voucherRepo.byMessageID k = st.voucherRepo.byMessageID k) ∧
    ((inmemory.service catalogue.toRepository).ProcessMessage env ⟨m, regenerate⟩
      st).2.messages.records = st.messages.records ∧
    ((regenerate = true ∨ st.messages.records m.ID = none ∨
        st.voucherRepo.byMessageID m.ID = none) →
      ((inmemory.service catalogue.toRepository).ProcessMessage env ⟨m, regenerate⟩ st).1 =
        (app.ProcessResult.zero,
          some (Error.NotFoundError ⟨m.TransType, line.AmountType⟩))) := by
  have hnone : catalogue.rules ⟨m.TransType, line.AmountType⟩ = none := by
    have := List.find?_some hfirst
    simpa using this
  have herr : (catalogue.toRepository.FindByKey ⟨m.TransType, line.AmountType⟩).2 =
      some (Error.NotFoundError ⟨m.TransType, line.AmountType⟩) := by
    simp [static.Repository.toRepository, static.Repository.FindByKey, hnone]
  have hres := app.resolve_error catalogue.toRepository m.TransType m.Amounts [] line _
    (by rw [static.unresolved_eq]; exact hfirst) herr
  by_cases hslow : regenerate = true ∨ st.messages.records m.ID = none ∨
      st.voucherRepo.byMessageID m.ID = none
  · rw [inmemory.process_slow _ env ⟨m, regenerate⟩ st hvalid hslow,
      inmemory.build_resolve_error _ env ⟨m, regenerate⟩ _ _ hres]
    refine ⟨?_, ?_, fun _ => rfl⟩
    · intro k
      by_cases hr : regenerate = true
      · by_cases hk : k = m.ID
        · left; simp [hr, GoMap.delete, hk]
        · right; simp [hr, GoMap.delete, hk]
      · right; simp [hr]
    · by_cases hr : regenerate = true <;> simp [hr]
  · have hslow2 := hslow
    simp only [not_or] at hslow2
    obtain ⟨hflag, hrec, hvo⟩ := hslow2
    obtain ⟨record, hrecord⟩ := Option.ne_none_iff_exists'.mp hrec
    obtain ⟨v, hv⟩ := Option.ne_none_iff_exists'.mp hvo
    rw [inmemory.process_fast _ env ⟨m, regenerate⟩ st record v hvalid (by simpa using hflag)
      hrecord hv]
    exact ⟨fun k => Or.inr rfl, rfl, fun h => absurd h hslow⟩

/-- C4 instantiated: regenerating with `m1Penalty`, whose second line has no rule, on the
stores left by processing `m1`. -/
theorem C4_all_or_nothing_witness :
    demo.m1Penalty.Validate = none ∧
    demo.m1Penalty.Amounts.find?
        (fun l => (static.NewRepository.rules ⟨demo.m1Penalty.TransType, l.AmountType⟩).isNone)
      = some ⟨"penalty", 5, "CNY"⟩ ∧
    ((inmemory.service static.NewRepository.toRepository).ProcessMessage demo.env2
        ⟨demo.m1Penalty, true⟩ demo.afterM1).2.messages.records =
      demo.afterM1.messages.records ∧
    ((inmemory.service static.NewRepository.toRepository).ProcessMessage demo.env2
        ⟨demo.m1Penalty, true⟩ demo.afterM1).1 =
      (app.ProcessResult.zero, some (Error.NotFoundError ⟨"loan_repayplan", "penalty"⟩)) :=
  ⟨by decide, by decide,
    (C4_all_or_nothing static.NewRepository demo.env2 demo.m1Penalty true demo.afterM1
      ⟨"penalty", 5, "CNY"⟩ (by decide) (by decide)).2.1,
    (C4_all_or_nothing static.NewRepository demo.env2 demo.m1Penalty true demo.afterM1
      ⟨"penalty", 5, "CNY"⟩ (by decide) (by decide)).2.2 (Or.inl rfl)⟩

/-- C8, as stated, fails: in the reachable state left by a failed regeneration, where the
ledger records `m1` and the voucher store holds no voucher for it, processing the valid,
fully resolvable `m1` with `Regenerate=false` fails when the entropy source fails, and
then stores no voucher. -/
theorem C8_repair_fails_without_entropy :
    demo.m1.Validate = none ∧
    (∀ line ∈ demo.m1.Amounts,
      (demo.catalogue.FindByKey ⟨demo.m1.TransType, line.AmountType⟩).2 = none) ∧
    (demo.afterFailedRegenerate.messages.records demo.m1.ID).isSome = true ∧
    demo.afterFailedRegenerate.voucherRepo.byMessageID demo.m1.ID = none ∧
    ((inmemory.service demo.catalogue).ProcessMessage demo.envFail ⟨demo.m1, false⟩
      demo.afterFailedRegenerate).1 =
      (app.ProcessResult.zero, some (Error.other "entropy source unavailable")) ∧
    ((inmemory.service demo.catalogue).ProcessMessage demo.envFail ⟨demo.m1, false⟩
      demo.afterFailedRegenerate).2.voucherRepo.byMessageID demo.m1.ID = none := by
  refine ⟨by decide, by decide, by decide, by decide, by decide, by decide⟩

/-- C8, amended: for a valid message `m` whose lines all resolve, in every state of the
in-memory stores where the voucher store holds no voucher for `m.ID` (in particular when
the ledger nevertheless holds a record for `m.ID`), if the entropy source does not fail
then `ProcessMessage(m, Regenerate=false)` succeeds with `Created = true`, returns the
newly built voucher (generated id, `m.ID`, entries derived from `m`'s lines, `m`'s
metadata), stores it for `m.ID`, and leaves a ledger record for `m.ID` whose
`LastVoucherID` is that voucher's id. -/
theorem C8_self_healing_repair (ruleRepo : rule.Repository) (env : app.Env)
    (m : message.Message) (st : inmemory.Stores)
    (hvalid : m.Validate = none)
    (hresolved : ∀ line ∈ m.Amounts,
      (ruleRepo.FindByKey ⟨m.TransType, line.AmountType⟩).2 = none)
    (hmissing : st.voucherRepo.byMessageID m.ID = none)
    (hrand : env.randErr = none) :
    ((inmemory.service ruleRepo).ProcessMessage env ⟨m, false⟩ st).1 =
      ({ Voucher :=
          { ID := (app.generateID env).1
            MessageID := m.ID
            GeneratedAt := env.now1
            Entries := m.Amounts.map (app.entryFor ruleRepo m.TransType)
            Metadata := m.Metadata }
         Created := true }, none) ∧
    ((inmemory.service ruleRepo).ProcessMessage env ⟨m, false⟩ st).2.voucherRepo.byMessageID
        m.ID =
      some ((inmemory.service ruleRepo).ProcessMessage env ⟨m, false⟩ st).1.1.Voucher ∧
    ∃ updated,
      ((inmemory.service ruleRepo).ProcessMessage env ⟨m, false⟩ st).2.messages.records m.ID =
        some updated ∧
      updated.LastVoucherID =
        ((inmemory.service ruleRepo).ProcessMessage env ⟨m, false⟩ st).1.1.Voucher.ID := by
  rw [inmemory.process_slow ruleRepo env ⟨m, false⟩ st hvalid (Or.inr (Or.inr hmissing)),
    inmemory.build_ok ruleRepo env ⟨m, false⟩ _ hresolved hrand]
  exact ⟨rfl, by simp [GoMap.set], app.builtRecord env m, by simp [GoMap.set], rfl⟩

/-- C8 (amended) instantiated: `m1` processed again, with working entropy, in the state
left by a failed regeneration. -/
theorem C8_self_healing_repair_witness :
    demo.m1.Validate = none ∧
    demo.afterFailedRegenerate.messages.records demo.m1.ID =
      some (app.builtRecord demo.env demo.m1) ∧
    demo.afterFailedRegenerate.voucherRepo.byMessageID demo.m1.ID = none ∧
    demo.env2.randErr = none ∧
    ((inmemory.service demo.catalogue).ProcessMessage demo.env2 ⟨demo.m1, false⟩
        demo.afterFailedRegenerate).2.voucherRepo.byMessageID demo.m1.ID =
      some ((inmemory.service demo.catalogue).ProcessMessage demo.env2 ⟨demo.m1, false⟩
        demo.afterFailedRegenerate).1.1.Voucher :=
  ⟨by decide, by decide, by decide, by decide,
    (C8_self_healing_repair demo.catalogue demo.env2 demo.m1 demo.afterFailedRegenerate
      (by decide) (by decide) (by decide) (by decide)).2.1⟩

/-! ## Invariants and frame properties of the in-memory workflow -/

/-- C11: in every state of the in-memory stores reachable from fresh stores by sequential
`ProcessMessage` calls, whatever their outcomes, if the voucher store holds voucher `v` for
message id `x` then `v.MessageID = x` and the ledger holds a record for `x` whose
`LastVoucherID` is `v.ID`. -/
theorem C11_ledger_voucher_consistency (st : inmemory.Stores) (x : String)
    (v : voucher.Voucher)
    (hreach : inmemory.Reachable st)
    (hstored : st.voucherRepo.byMessageID x = some v) :
    v.MessageID = x ∧
    ∃ record, st.messages.records x = some record ∧ record.LastVoucherID = v.ID :=
  inmemory.reachable_consistent st hreach x v hstored

/-- C11 instantiated: the stores left by processing `m1`, then regenerating it. -/
theorem C11_ledger_voucher_consistency_witness :
    inmemory.Reachable
      ((inmemory.service demo.catalogue).ProcessMessage demo.env2 ⟨demo.m1, true⟩
        demo.afterM1).2 ∧
    ((inmemory.service demo.catalogue).ProcessMessage demo.env2 ⟨demo.m1, true⟩
        demo.afterM1).2.voucherRepo.byMessageID "m1" =
      some (app.builtVoucher demo.catalogue demo.env2 demo.m1) ∧
    ∃ record,
      ((inmemory.service demo.catalogue).ProcessMessage demo.env2 ⟨demo.m1, true⟩
        demo.afterM1).2.messages.records "m1" = some record ∧
      record.LastVoucherID = (app.builtVoucher demo.catalogue demo.env2 demo.m1).ID :=
  ⟨inmemory.Reachable.step _ _ _ _ (inmemory.Reachable.step _ _ _ _ inmemory.Reachable.init),
    by decide,
    (C11_ledger_voucher_consistency _ "m1" (app.builtVoucher demo.catalogue demo.env2 demo.m1)
      (inmemory.Reachable.step _ _ _ _ (inmemory.Reachable.step _ _ _ _ inmemory.Reachable.init))
      (by decide)).2⟩

/-- C12: over the in-memory stores, for a valid message whose lines all resolve and whose
call gets past the fast path, if the entropy source fails with `err` then `ProcessMessage`
returns `err` next to the empty result, the ledger is unchanged, and the voucher store is
the prior one with the voucher for `m.ID` deleted when `Regenerate=true` and exactly the
prior one when `Regenerate=false`; so no voucher is saved. -/
theorem C12_generate_id_failure (ruleRepo : rule.Repository) (env : app.Env)
    (m : message.Message) (regenerate : Bool) (st : inmemory.Stores) (err : Error)
    (hvalid : m.Validate = none)
    (hresolved : ∀ line ∈ m.Amounts,
      (ruleRepo.FindByKey ⟨m.TransType, line.AmountType⟩).2 = none)
    (hreached : regenerate = true ∨ st.messages.records m.ID = none ∨
      st.voucherRepo.byMessageID m.ID = none)
    (hrand : env.randErr = some err) :
    (app.generateID env).2 = some err ∧
    ((inmemory.service ruleRepo).ProcessMessage env ⟨m, regenerate⟩ st).1 =
      (app.ProcessResult.zero, some err) ∧
    ((inmemory.service ruleRepo).ProcessMessage env ⟨m, regenerate⟩ st).2.messages =
      st.messages ∧
    ((inmemory.service ruleRepo).ProcessMessage env ⟨m, regenerate⟩
        st).2.voucherRepo.byMessageID =
      (if regenerate then st.voucherRepo.byMessageID.delete m.ID
        else st.voucherRepo.byMessageID) ∧
    ∀ k v,
      ((inmemory.service ruleRepo).ProcessMessage env ⟨m, regenerate⟩
        st).2.voucherRepo.byMessageID k = some v → st.voucherRepo.byMessageID k = some v := by
  rw [inmemory.process_slow ruleRepo env ⟨m, regenerate⟩ st hvalid hreached,
    inmemory.build_generate_error ruleRepo env ⟨m, regenerate⟩ _ err hresolved hrand]
  refine ⟨by simp [app.generateID, hrand], rfl, ?_, ?_, ?_⟩
  · by_cases hr : regenerate = true <;> simp [hr]
  · by_cases hr : regenerate = true <;> simp [hr]
  · intro k v
    by_cases hr : regenerate = true
    · by_cases hk : k = m.ID
      · simp [hr, GoMap.delete, hk]
      · simp [hr, GoMap.delete, hk]
    · simp [hr]

/-- C12 instantiated: regenerating `m1` with a failing entropy source on the stores left by
processing `m1`. -/
theorem C12_generate_id_failure_witness :
    demo.m1.Validate = none ∧
    demo.envFail.randErr = some (Error.other "entropy source unavailable") ∧
    ((inmemory.service demo.catalogue).ProcessMessage demo.envFail ⟨demo.m1, true⟩
      demo.afterM1).1 =
      (app.ProcessResult.zero, some (Error.other "entropy source unavailable")) ∧
    ((inmemory.service demo.catalogue).ProcessMessage demo.envFail ⟨demo.m1, true⟩
      demo.afterM1).2.messages = demo.afterM1.messages :=
  ⟨by decide, by decide,
    (C12_generate_id_failure demo.catalogue demo.envFail demo.m1 true demo.afterM1
      (Error.other "entropy source unavailable") (by decide) (by decide) (Or.inl rfl)
      (by decide)).2.1,
    (C12_generate_id_failure demo.catalogue demo.envFail demo.m1 true demo.afterM1
      (Error.other "entropy source unavailable") (by decide) (by decide) (Or.inl rfl)
      (by decide)).2.2.1⟩

/-- C15: the in-memory voucher store, in every state `r`, for every voucher `v` and message
id `x`: `Save(v)` returns no error and afterwards `FindByMessageID(v.MessageID)` returns `v`
with `found = true` and no error, whatever was stored under that id before;
`DeleteByMessageID(x)` returns no error, leaves the store unchanged when `x` is absent,
gives the same store when applied twice as when applied once, and afterwards
`FindByMessageID(x)` returns `found = false` (with the zero voucher) and no error. -/
theorem C15_voucher_store_semantics (r : inmemory.VoucherRepository) (v : voucher.Voucher)
    (x : String) :
    (r.Save v).1 = none ∧
    (r.Save v).2.FindByMessageID v.MessageID = (v, true, none) ∧
    (r.DeleteByMessageID x).1 = none ∧
    (r.byMessageID x = none → (r.DeleteByMessageID x).2 = r) ∧
    ((r.DeleteByMessageID x).2.DeleteByMessageID x).1 = none ∧
    ((r.DeleteByMessageID x).2.DeleteByMessageID x).2 = (r.DeleteByMessageID x).2 ∧
    (r.DeleteByMessageID x).2.FindByMessageID x = (voucher.Voucher.zero, false, none) := by
  refine ⟨rfl, ?_, rfl, ?_, rfl, ?_, ?_⟩
  · simp [inmemory.VoucherRepository.Save, inmemory.VoucherRepository.FindByMessageID,
      GoMap.lookup, GoMap.set]
  · intro habsent
    cases r with
    | mk byMessageID =>
      simp only [inmemory.VoucherRepository.DeleteByMessageID]
      rw [GoMap.delete_absent _ _ habsent]
  · simp only [inmemory.VoucherRepository.DeleteByMessageID]
    rw [GoMap.delete_absent _ _ (by simp [GoMap.delete])]
  · simp [inmemory.VoucherRepository.DeleteByMessageID,
      inmemory.VoucherRepository.FindByMessageID, GoMap.lookup, GoMap.delete]

/-- C15 instantiated: deleting an absent id from the voucher store left by processing `m1`,
and saving a second voucher under the id of the stored one. -/
theorem C15_voucher_store_semantics_witness :
    demo.afterM1.voucherRepo.byMessageID "m2" = none ∧
    (demo.afterM1.voucherRepo.DeleteByMessageID "m2").2 = demo.afterM1.voucherRepo ∧
    (demo.afterM1.voucherRepo.Save
        (app.builtVoucher demo.catalogue demo.env2 demo.m1)).2.FindByMessageID "m1" =
      (app.builtVoucher demo.catalogue demo.env2 demo.m1, true, none) :=
  ⟨by decide,
    (C15_voucher_store_semantics demo.afterM1.voucherRepo
      (app.builtVoucher demo.catalogue demo.env2 demo.m1) "m2").2.2.2.1 (by decide),
    (C15_voucher_store_semantics demo.afterM1.voucherRepo
      (app.builtVoucher demo.catalogue demo.env2 demo.m1) "m2").2.1⟩

/-- C16: over the in-memory stores, when `ProcessMessage(m, r)` succeeds, the result has
`Created = false` exactly when `r` is false and, before the call, the ledger held a record
for `m.ID` and the voucher store held a voucher for `m.ID`; in every other successful case
the result has `Created = true`. -/
theorem C16_fast_path_condition (ruleRepo : rule.Repository) (env : app.Env)
    (m : message.Message) (r : Bool) (st : inmemory.Stores)
    (hok : ((inmemory.service ruleRepo).ProcessMessage env ⟨m, r⟩ st).1.2 = none) :
    (((inmemory.service ruleRepo).ProcessMessage env ⟨m, r⟩ st).1.1.Created = false ↔
      r = false ∧ (st.messages.records m.ID).isSome = true ∧
        (st.voucherRepo.byMessageID m.ID).isSome = true) ∧
    (¬(r = false ∧ (st.messages.records m.ID).isSome = true ∧
        (st.voucherRepo.byMessageID m.ID).isSome = true) →
      ((inmemory.service ruleRepo).ProcessMessage env ⟨m, r⟩ st).1.1.Created = true) := by
  rcases inmemory.process_cases ruleRepo env ⟨m, r⟩ st with
    ⟨err, _, heq⟩ | ⟨record, v, _, hflag, hrec, hv, heq⟩ | ⟨err, _, _, heq⟩ |
    ⟨_, hslow, _, _, heq⟩
  · rw [heq] at hok; simp at hok
  · rw [heq]
    simp only at hflag hrec hv
    simp [hflag, hrec, hv]
  · rw [heq] at hok; simp at hok
  · rw [heq]
    simp only at hslow
    have hnot : ¬(r = false ∧ (st.messages.records m.ID).isSome = true ∧
        (st.voucherRepo.byMessageID m.ID).isSome = true) := by
      rintro ⟨h1, h2, h3⟩
      rcases hslow with h | h | h
      · rw [h1] at h; simp at h
      · rw [h] at h2; simp at h2
      · rw [h] at h3; simp at h3
    exact ⟨⟨fun h => by simp at h, fun h => absurd h hnot⟩, fun _ => rfl⟩

/-- C16 instantiated: `m1` replayed on the stores left by processing it. -/
theorem C16_fast_path_condition_witness :
    ((inmemory.service demo.catalogue).ProcessMessage demo.env2 ⟨demo.m1, false⟩
      demo.afterM1).1.2 = none ∧
    (((inmemory.service demo.catalogue).ProcessMessage demo.env2 ⟨demo.m1, false⟩
        demo.afterM1).1.1.Created = false ↔
      false = false ∧ (demo.afterM1.messages.records demo.m1.ID).isSome = true ∧
        (demo.afterM1.voucherRepo.byMessageID demo.m1.ID).isSome = true) :=
  ⟨by decide,
    (C16_fast_path_condition demo.catalogue demo.env2 demo.m1 false demo.afterM1
      (by decide)).1⟩

/-- C17: over the in-memory stores, whenever `ProcessMessage(m, r)` returns successfully
with `Created = false`, the returned voucher is the voucher stored for `m.ID` before the
call, in all its fields, and the call leaves both the voucher store and the message ledger
exactly as they were; with call-recording collaborators the only calls made are `FindByID`
and `FindByMessageID`, so nothing is saved, deleted or upserted; and the outcome is the same
for every entropy source and clock, so no generated id enters it. -/
theorem C17_replay_changes_nothing (ruleRepo : rule.Repository) (env : app.Env)
    (m : message.Message) (r : Bool) (st : inmemory.Stores)
    (hok : ((inmemory.service ruleRepo).ProcessMessage env ⟨m, r⟩ st).1.2 = none)
    (hreplay : ((inmemory.service ruleRepo).ProcessMessage env ⟨m, r⟩ st).1.1.Created = false) :
    st.voucherRepo.byMessageID m.ID =
      some ((inmemory.service ruleRepo).ProcessMessage env ⟨m, r⟩ st).1.1.Voucher ∧
    ((inmemory.service ruleRepo).ProcessMessage env ⟨m, r⟩ st).2 = st ∧
    ((inmemory.service ruleRepo).recorded.ProcessMessage env ⟨m, r⟩ (st, [])).2.2 =
      [app.Call.FindByID, app.Call.FindByMessageID] ∧
    ∀ env2 : app.Env,
      (inmemory.service ruleRepo).ProcessMessage env2 ⟨m, r⟩ st =
        (inmemory.service ruleRepo).ProcessMessage env ⟨m, r⟩ st := by
  rcases inmemory.process_cases ruleRepo env ⟨m, r⟩ st with
    ⟨err, _, heq⟩ | ⟨record, v, hvalid, hflag, hrec, hv, heq⟩ | ⟨err, _, _, heq⟩ |
    ⟨_, _, _, _, heq⟩
  · rw [heq] at hok; simp at hok
  · rw [heq]
    simp only at hvalid hflag hrec hv
    refine ⟨hv, rfl, ?_, fun env2 =>
      inmemory.process_fast ruleRepo env2 ⟨m, r⟩ st record v hvalid hflag hrec hv⟩
    simp [app.Service.ProcessMessage, app.Service.recorded, hvalid, hflag, inmemory.service,
      app.NewService, inmemory.messageStoreImpl, inmemory.voucherRepoImpl,
      inmemory.MessageStore.FindByID, inmemory.VoucherRepository.FindByMessageID, GoMap.lookup,
      hrec, hv]
  · rw [heq] at hok; simp at hok
  · rw [heq] at hreplay; simp at hreplay

/-- C17 instantiated: `m1` replayed on the stores left by processing it. -/
theorem C17_replay_changes_nothing_witness :
    ((inmemory.service demo.catalogue).ProcessMessage demo.env2 ⟨demo.m1, false⟩
      demo.afterM1).1.2 = none ∧
    ((inmemory.service demo.catalogue).ProcessMessage demo.env2 ⟨demo.m1, false⟩
      demo.afterM1).1.1.Created = false ∧
    ((inmemory.service demo.catalogue).ProcessMessage demo.env2 ⟨demo.m1, false⟩
      demo.afterM1).2 = demo.afterM1 :=
  ⟨by decide, by decide,
    (C17_replay_changes_nothing demo.catalogue demo.env2 demo.m1 false demo.afterM1
      (by decide) (by decide)).2.1⟩

/-- C18: over the in-memory stores and a map backed catalogue, for a valid message `m` whose
first amount line without a registered rule is `line`, in every state where the voucher
store holds voucher `v` for `m.ID`, `ProcessMessage(m, Regenerate=true)` fails with
`NotFoundError` (for the key of `line`), leaves the voucher store without a voucher for
`m.ID` and the ledger unchanged, so the state after the call differs from the state before;
and when the state is reachable the ledger record for `m.ID` is still there and still names
`v.ID` as `LastVoucherID`. -/
theorem C18_failed_regeneration_not_atomic (catalogue : static.Repository) (env : app.Env)
    (m : message.Message) (st : inmemory.Stores) (v : voucher.Voucher)
    (line : message.AmountLine)
    (hvalid : m.Validate = none)
    (hfirst : m.Amounts.find? (fun l => (catalogue.rules ⟨m.TransType, l.AmountType⟩).isNone)
      = some line)
    (hstored : st.voucherRepo.byMessageID m.ID = some v) :
    ((inmemory.service catalogue.toRepository).ProcessMessage env ⟨m, true⟩ st).1 =
      (app.ProcessResult.zero, some (Error.NotFoundError ⟨m.TransType, line.AmountType⟩)) ∧
    ((inmemory.service catalogue.toRepository).ProcessMessage env ⟨m, true⟩
      st).2.voucherRepo.byMessageID m.ID = none ∧
    ((inmemory.service catalogue.toRepository).ProcessMessage env ⟨m, true⟩ st).2.messages =
      st.messages ∧
    ((inmemory.service catalogue.toRepository).ProcessMessage env ⟨m, true⟩ st).2 ≠ st ∧
    (inmemory.Reachable st →
      ∃ record,
        ((inmemory.service catalogue.toRepository).ProcessMessage env ⟨m, true⟩
          st).2.messages.records m.ID = some record ∧
        record.LastVoucherID = v.ID) := by
  have hnone : catalogue.rules ⟨m.TransType, line.AmountType⟩ = none := by
    have := List.find?_some hfirst
    simpa using this
  have herr : (catalogue.toRepository.FindByKey ⟨m.TransType, line.AmountType⟩).2 =
      some (Error.NotFoundError ⟨m.TransType, line.AmountType⟩) := by
    simp [static.Repository.toRepository, static.Repository.FindByKey, hnone]
  have hres := app.resolve_error catalogue.toRepository m.TransType m.Amounts [] line _
    (by rw [static.unresolved_eq]; exact hfirst) herr
  rw [inmemory.process_slow _ env ⟨m, true⟩ st hvalid (Or.inl rfl),
    inmemory.build_resolve_error _ env ⟨m, true⟩ _ _ hres]
  refine ⟨rfl, by simp [GoMap.delete], rfl, ?_, ?_⟩
  · intro heq
    have h := congrArg (fun s : inmemory.Stores => s.voucherRepo.byMessageID m.ID) heq
    simp [GoMap.delete, hstored] at h
  · intro hreach
    obtain ⟨_, record, hrec, hlast⟩ := inmemory.reachable_consistent st hreach m.ID v hstored
    exact ⟨record, hrec, hlast⟩

/-- C18 instantiated: regenerating with `m1Penalty` on the stores left by processing `m1`. -/
theorem C18_failed_regeneration_not_atomic_witness :
    demo.m1Penalty.Validate = none ∧
    demo.afterM1.voucherRepo.byMessageID demo.m1Penalty.ID =
      some (app.builtVoucher demo.catalogue demo.env demo.m1) ∧
    ((inmemory.service static.NewRepository.toRepository).ProcessMessage demo.env2
      ⟨demo.m1Penalty, true⟩ demo.afterM1).2.voucherRepo.byMessageID demo.m1Penalty.ID = none ∧
    ((inmemory.service static.NewRepository.toRepository).ProcessMessage demo.env2
      ⟨demo.m1Penalty, true⟩ demo.afterM1).2 ≠ demo.afterM1 :=
  ⟨by decide, by decide,
    (C18_failed_regeneration_not_atomic static.NewRepository demo.env2 demo.m1Penalty
      demo.afterM1 (app.builtVoucher demo.catalogue demo.env demo.m1) ⟨"penalty", 5, "CNY"⟩
      (by decide) (by decide) (by decide)).2.1,
    (C18_failed_regeneration_not_atomic static.NewRepository demo.env2 demo.m1Penalty
      demo.afterM1 (app.builtVoucher demo.catalogue demo.env demo.m1) ⟨"penalty", 5, "CNY"⟩
      (by decide) (by decide) (by decide)).2.2.2.1⟩

/-- C19: over the in-memory stores, for any two valid messages `ma` and `mb` with the same
id, in every state where the ledger has a record and the voucher store has voucher `v` for
that id, `ProcessMessage(ma, false)` and `ProcessMessage(mb, false)` both succeed with the
result `(v, Created=false)` and leave the stores as they are, whatever rule catalogue,
entropy and clock each call is given: the catalogue is not consulted. -/
theorem C19_fast_path_depends_on_id_only (repoA repoB : rule.Repository) (envA envB : app.Env)
    (ma mb : message.Message) (st : inmemory.Stores) (record : app.MessageRecord)
    (v : voucher.Voucher)
    (hvalidA : ma.Validate = none) (hvalidB : mb.Validate = none)
    (hid : ma.ID = mb.ID)
    (hrecord : st.messages.records ma.ID = some record)
    (hstored : st.voucherRepo.byMessageID ma.ID = some v) :
    (inmemory.service repoA).ProcessMessage envA ⟨ma, false⟩ st =
      (({ Voucher := v, Created := false }, none), st) ∧
    (inmemory.service repoB).ProcessMessage envB ⟨mb, false⟩ st =
      (({ Voucher := v, Created := false }, none), st) :=
  ⟨inmemory.process_fast repoA envA ⟨ma, false⟩ st record v hvalidA rfl hrecord hstored,
    inmemory.process_fast repoB envB ⟨mb, false⟩ st record v hvalidB rfl
      (by rw [← hid]; exact hrecord) (by rw [← hid]; exact hstored)⟩

/-- C19 instantiated: `m1` and `m1Penalty` (same id, a line without a rule), the second
with a catalogue that resolves nothing, on the stores left by processing `m1`. -/
theorem C19_fast_path_depends_on_id_only_witness :
    demo.m1.Validate = none ∧ demo.m1Penalty.Validate = none ∧
    demo.m1.ID = demo.m1Penalty.ID ∧
    (inmemory.service (static.Repository.toRepository ⟨GoMap.empty⟩)).ProcessMessage
        demo.envFail ⟨demo.m1Penalty, false⟩ demo.afterM1 =
      (({ Voucher := app.builtVoucher demo.catalogue demo.env demo.m1, Created := false },
        none), demo.afterM1) :=
  ⟨by decide, by decide, by decide,
    (C19_fast_path_depends_on_id_only demo.catalogue
      (static.Repository.toRepository ⟨GoMap.empty⟩) demo.env demo.envFail demo.m1
      demo.m1Penalty demo.afterM1 (app.builtRecord demo.env demo.m1)
      (app.builtVoucher demo.catalogue demo.env demo.m1) (by decide) (by decide) (by decide)
      (by decide) (by decide)).2⟩

/-- C20: over the in-memory stores, for every message `m`, flag `r` and state, whatever the
outcome of `ProcessMessage(m, r)`, for every message id `k` other than `m.ID` the voucher
stored (or absent) for `k` and the ledger record stored (or absent) for `k` are unchanged. -/
theorem C20_per_message_frame (ruleRepo : rule.Repository) (env : app.Env)
    (m : message.Message) (r : Bool) (st : inmemory.Stores) (k : String)
    (hother : k ≠ m.ID) :
    ((inmemory.service ruleRepo).ProcessMessage env ⟨m, r⟩ st).2.voucherRepo.byMessageID k =
      st.voucherRepo.byMessageID k ∧
    ((inmemory.service ruleRepo).ProcessMessage env ⟨m, r⟩ st).2.messages.records k =
      st.messages.records k := by
  rcases inmemory.process_cases ruleRepo env ⟨m, r⟩ st with
    ⟨err, _, heq⟩ | ⟨record, v, _, _, _, _, heq⟩ | ⟨err, _, _, heq⟩ | ⟨_, _, _, _, heq⟩
  · rw [heq]; exact ⟨rfl, rfl⟩
  · rw [heq]; exact ⟨rfl, rfl⟩
  · rw [heq]
    by_cases hr : r = true <;> simp [hr, GoMap.delete, hother]
  · rw [heq]
    by_cases hr : r = true <;> simp [hr, GoMap.delete, GoMap.set, hother]

/-- C20 instantiated: regenerating `m1` leaves the entries of `m2` as they were. -/
theorem C20_per_message_frame_witness :
    "m2" ≠ demo.m1.ID ∧
    ((inmemory.service demo.catalogue).ProcessMessage demo.env2 ⟨demo.m1, true⟩
      ((inmemory.service demo.catalogue).ProcessMessage demo.env ⟨demo.m2, false⟩
        demo.afterM1).2).2.voucherRepo.byMessageID "m2" =
      some (app.builtVoucher demo.catalogue demo.env demo.m2) :=
  ⟨by decide,
    ((C20_per_message_frame demo.catalogue demo.env2 demo.m1 true
      ((inmemory.service demo.catalogue).ProcessMessage demo.env ⟨demo.m2, false⟩
        demo.afterM1).2 "m2" (by decide)).1).trans (by decide)⟩

/-! ## Identifier generation -/

namespace hex

theorem hextable_getD_injective :
    ∀ a < 16, ∀ b < 16, hextable.getD a '0' = hextable.getD b '0' → a = b := by
  decide

theorem hextable_getD_mem : ∀ a < 16, hextable.getD a '0' ∈ hextable := by
  decide

theorem byte_eq_of_digits (v w : Nat) (hv : v < 256) (hw : w < 256)
    (hhi : hextable.getD (v / 16) '0' = hextable.getD (w / 16) '0')
    (hlo : hextable.getD (v % 16) '0' = hextable.getD (w % 16) '0') : v = w := by
  have h1 := hextable_getD_injective (v / 16) (by omega) (w / 16) (by omega) hhi
  have h2 := hextable_getD_injective (v % 16) (by omega) (w % 16) (by omega) hlo
  omega

theorem EncodeToString_injective (l1 l2 : List Nat) (h1 : ∀ x ∈ l1, x < 256)
    (h2 : ∀ x ∈ l2, x < 256) (h : EncodeToString l1 = EncodeToString l2) : l1 = l2 := by
  have hdata : (l1.flatMap fun v => [hextable.getD (v / 16) '0', hextable.getD (v % 16) '0']) =
      (l2.flatMap fun v => [hextable.getD (v / 16) '0', hextable.getD (v % 16) '0']) := by
    unfold EncodeToString at h
    exact congrArg String.data h
  clear h
  induction l1 generalizing l2 with
  | nil =>
    cases l2 with
    | nil => rfl
    | cons w rest => simp at hdata
  | cons v rest ih =>
    cases l2 with
    | nil => simp at hdata
    | cons w rest2 =>
      simp only [List.flatMap_cons, List.cons_append, List.nil_append, List.cons.injEq] at hdata
      obtain ⟨hhi, hlo, hrest⟩ := hdata
      have hvw := byte_eq_of_digits v w (h1 v (List.mem_cons_self _ _))
        (h2 w (List.mem_cons_self _ _)) hhi hlo
      have := ih rest2 (fun x hx => h1 x (List.mem_cons_of_mem _ hx))
        (fun x hx => h2 x (List.mem_cons_of_mem _ hx)) hrest
      rw [hvw, this]

theorem EncodeToString_length (l : List Nat) : (EncodeToString l).length = 2 * l.length := by
  have : ∀ l : List Nat,
      (l.flatMap fun v => [hextable.getD (v / 16) '0', hextable.getD (v % 16) '0']).length =
        2 * l.length := by
    intro l
    induction l with
    | nil => rfl
    | cons v rest ih =>
      rw [List.flatMap_cons, List.length_append, ih]
      simp only [List.length_cons, List.length_nil]
      omega
  exact this l

theorem EncodeToString_digits (l : List Nat) (hl : ∀ x ∈ l, x < 256) :
    ∀ c ∈ (EncodeToString l).toList, c ∈ hextable := by
  intro c hc
  simp only [EncodeToString, String.toList, List.mem_flatMap] at hc
  obtain ⟨v, hv, hcv⟩ := hc
  have hlt := hl v hv
  simp only [List.mem_cons, List.mem_singleton, List.not_mem_nil, or_false] at hcv
  rcases hcv with h | h
  · rw [h]; exact hextable_getD_mem _ (by omega)
  · rw [h]; exact hextable_getD_mem _ (by omega)

end hex

namespace app

theorem entropyBytes_lt (env : Env) : ∀ x ∈ entropyBytes env, x < 256 := by
  intro x hx
  simp only [entropyBytes, List.mem_map] at hx
  obtain ⟨i, _, hi⟩ := hx
  omega

theorem entropyBytes_length (env : Env) : (entropyBytes env).length = 16 := by
  simp [entropyBytes]

theorem generateID_ok (env : Env) (h : env.randErr = none) :
    generateID env = (hex.EncodeToString (entropyBytes env), none) := by
  simp [generateID, h, entropyBytes]

theorem build_created_entropy {σ : Type} (s : Service σ) (env : Env) (cmd : ProcessCommand)
    (st : σ) (hok : (ProcessMessage.build s env cmd st).1.2 = none)
    (hcreated : (ProcessMessage.build s env cmd st).1.1.Created = true) :
    env.randErr = none := by
  cases hrand : env.randErr with
  | none => rfl
  | some err =>
    exfalso
    revert hok hcreated
    unfold ProcessMessage.build
    split
    · simp
    · simp [generateID, hrand]

theorem process_created_entropy {σ : Type} (s : Service σ) (env : Env) (cmd : ProcessCommand)
    (st : σ) (hok : (s.ProcessMessage env cmd st).1.2 = none)
    (hcreated : (s.ProcessMessage env cmd st).1.1.Created = true) :
    env.randErr = none := by
  have hreg : ∀ st0 : σ, (ProcessMessage.regenerate s env cmd st0).1.2 = none →
      (ProcessMessage.regenerate s env cmd st0).1.1.Created = true → env.randErr = none := by
    intro st0
    unfold ProcessMessage.regenerate
    split
    · split
      · simp
      · exact build_created_entropy s env cmd _
    · exact build_created_entropy s env cmd _
  revert hok hcreated
  unfold Service.ProcessMessage
  split
  · simp
  · split
    · simp
    · split
      · split
        · simp
        · split
          · simp
          · exact hreg _
      · exact hreg _

end app

/-- C14, as stated, fails: a valid message whose id is the hex text
`000102030405060708090a0b0c0d0e0f`, processed while the entropy source delivers the bytes
`0, 1, ..., 15`, yields `Created = true` with a voucher id equal to the message id; and
regenerating `m1` while the entropy source delivers the same bytes as when it was first
processed yields a voucher id equal to the id of the voucher produced before. -/
theorem C14_identifier_collisions :
    demo.mHex.Validate = none ∧
    ((inmemory.service demo.catalogue).ProcessMessage demo.env ⟨demo.mHex, false⟩
      inmemory.Stores.empty).1.2 = none ∧
    ((inmemory.service demo.catalogue).ProcessMessage demo.env ⟨demo.mHex, false⟩
      inmemory.Stores.empty).1.1.Created = true ∧
    ((inmemory.service demo.catalogue).ProcessMessage demo.env ⟨demo.mHex, false⟩
      inmemory.Stores.empty).1.1.Voucher.ID = demo.mHex.ID ∧
    demo.m1.Validate = none ∧
    ((inmemory.service demo.catalogue).ProcessMessage demo.env ⟨demo.m1, false⟩
      inmemory.Stores.empty).1.1.Created = true ∧
    ((inmemory.service demo.catalogue).ProcessMessage demo.env ⟨demo.m1, true⟩
      demo.afterM1).1.2 = none ∧
    ((inmemory.service demo.catalogue).ProcessMessage demo.env ⟨demo.m1, true⟩
      demo.afterM1).1.1.Created = true ∧
    ((inmemory.service demo.catalogue).ProcessMessage demo.env ⟨demo.m1, true⟩
      demo.afterM1).1.1.Voucher.ID =
      ((inmemory.service demo.catalogue).ProcessMessage demo.env ⟨demo.m1, false⟩
        inmemory.Stores.empty).1.1.Voucher.ID := by
  refine ⟨by decide, by decide, by decide, by decide, by decide, by decide, by decide,
    by decide, by decide⟩

/-- C14, amended: when `ProcessMessage` succeeds with `Created = true` (over any
collaborators), the entropy source did not fail and the id of the returned voucher is the
hex encoding of the 16 bytes it delivered: 32 characters, each one of `0123456789abcdef`.
It differs from the message id exactly when the message id is not that encoding, hence
whenever the message id is not 32 characters long; and it differs from the id generated
for an earlier voucher exactly when the 16 bytes delivered then differ from the 16 bytes
delivered now. -/
theorem C14_identifier_from_entropy {σ : Type} (s : app.Service σ) (env : app.Env)
    (cmd : app.ProcessCommand) (st : σ)
    (hok : (s.ProcessMessage env cmd st).1.2 = none)
    (hcreated : (s.ProcessMessage env cmd st).1.1.Created = true) :
    env.randErr = none ∧
    (s.ProcessMessage env cmd st).1.1.Voucher.ID = hex.EncodeToString (app.entropyBytes env) ∧
    (s.ProcessMessage env cmd st).1.1.Voucher.ID.length = 32 ∧
    (∀ c ∈ (s.ProcessMessage env cmd st).1.1.Voucher.ID.toList, c ∈ hex.hextable) ∧
    ((s.ProcessMessage env cmd st).1.1.Voucher.ID ≠ cmd.Message.ID ↔
      cmd.Message.ID ≠ hex.EncodeToString (app.entropyBytes env)) ∧
    (cmd.Message.ID.length ≠ 32 →
      (s.ProcessMessage env cmd st).1.1.Voucher.ID ≠ cmd.Message.ID) ∧
    ∀ earlier : app.Env, earlier.randErr = none →
      ((s.ProcessMessage env cmd st).1.1.Voucher.ID ≠ (app.generateID earlier).1 ↔
        app.entropyBytes env ≠ app.entropyBytes earlier) := by
  have hrand := app.process_created_entropy s env cmd st hok hcreated
  obtain ⟨_, hv, _⟩ := app.process_created s env cmd st hok hcreated
  have hid : (s.ProcessMessage env cmd st).1.1.Voucher.ID =
      hex.EncodeToString (app.entropyBytes env) := by
    rw [hv]
    simp [app.builtVoucher, app.generateID_ok env hrand]
  have hlen : (s.ProcessMessage env cmd st).1.1.Voucher.ID.length = 32 := by
    rw [hid, hex.EncodeToString_length, app.entropyBytes_length]
  refine ⟨hrand, hid, hlen, ?_, ?_, ?_, ?_⟩
  · rw [hid]
    exact hex.EncodeToString_digits _ (app.entropyBytes_lt env)
  · rw [hid]
    exact ⟨fun h heq => h heq.symm, fun h heq => h heq.symm⟩
  · intro hne heq
    rw [heq] at hlen
    exact hne hlen
  · intro earlier hearlier
    rw [hid, app.generateID_ok earlier hearlier]
    constructor
    · intro hne heq
      exact hne (by rw [heq])
    · intro hne heq
      exact hne (hex.EncodeToString_injective _ _ (app.entropyBytes_lt env)
        (app.entropyBytes_lt earlier) heq)

/-- C14 (amended) instantiated: regenerating `m1` with fresh entropy on the stores left by
processing it. -/
theorem C14_identifier_from_entropy_witness :
    ((inmemory.service demo.catalogue).ProcessMessage demo.env2 ⟨demo.m1, true⟩
      demo.afterM1).1.2 = none ∧
    ((inmemory.service demo.catalogue).ProcessMessage demo.env2 ⟨demo.m1, true⟩
      demo.afterM1).1.1.Created = true ∧
    ((inmemory.service demo.catalogue).ProcessMessage demo.env2 ⟨demo.m1, true⟩
      demo.afterM1).1.1.Voucher.ID ≠ demo.m1.ID ∧
    ((inmemory.service demo.catalogue).ProcessMessage demo.env2 ⟨demo.m1, true⟩
      demo.afterM1).1.1.Voucher.ID ≠ (app.generateID demo.env).1 :=
  ⟨by decide, by decide,
    (C14_identifier_from_entropy (inmemory.service demo.catalogue) demo.env2 ⟨demo.m1, true⟩
      demo.afterM1 (by decide) (by decide)).2.2.2.2.2.1 (by decide),
    ((C14_identifier_from_entropy (inmemory.service demo.catalogue) demo.env2 ⟨demo.m1, true⟩
      demo.afterM1 (by decide) (by decide)).2.2.2.2.2.2 demo.env (by decide)).mpr (by decide)⟩

/-! ## Collaborator failures -/

namespace app

theorem Surfaced.nil (res : ProcessResult × Option Error) : Surfaced [] res :=
  Or.inl (by simp)

theorem Surfaced.fail (c : Call) (e : Error) :
    Surfaced [(c, some e)] (ProcessResult.zero, some e) :=
  Or.inr ⟨[], c, e, rfl, by simp, rfl⟩

theorem Surfaced.cons_ok (c : Call) (calls : List (Call × Option Error))
    (res : ProcessResult × Option Error) (h : Surfaced calls res) :
    Surfaced ((c, none) :: calls) res := by
  rcases h with h | ⟨pre, c2, e, hcalls, hpre, hres⟩
  · left
    intro x hx
    rcases List.mem_cons.mp hx with hx | hx
    · rw [hx]
    · exact h x hx
  · right
    refine ⟨(c, none) :: pre, c2, e, by rw [hcalls]; rfl, ?_, hres⟩
    intro x hx
    rcases List.mem_cons.mp hx with hx | hx
    · rw [hx]
    · exact hpre x hx

theorem Surfaced.first_failure (calls : List (Call × Option Error))
    (res : ProcessResult × Option Error) (h : Surfaced calls res)
    (pre post : List (Call × Option Error)) (c : Call) (e : Error)
    (hsplit : calls = pre ++ (c, some e) :: post) :
    post = [] ∧ res = (ProcessResult.zero, some e) := by
  rcases h with h | ⟨pre2, c2, e2, hcalls, hpre2, hres⟩
  · have := h (c, some e) (by rw [hsplit]; simp)
    simp at this
  · rw [hcalls] at hsplit
    clear hcalls
    revert pre
    induction pre2 with
    | nil =>
      intro pre hsplit
      cases pre with
      | nil =>
        simp only [List.nil_append, List.cons.injEq, Prod.mk.injEq, Option.some.injEq] at hsplit
        obtain ⟨⟨_, he⟩, hpost⟩ := hsplit
        exact ⟨hpost.symm, by rw [hres, he]⟩
      | cons x rest =>
        simp only [List.nil_append, List.cons_append, List.cons.injEq] at hsplit
        have := hsplit.2
        simp at this
    | cons y rest2 ih =>
      intro pre hsplit
      cases pre with
      | nil =>
        simp only [List.nil_append, List.cons_append, List.cons.injEq] at hsplit
        have hy := hpre2 y (List.mem_cons_self _ _)
        rw [hsplit.1] at hy
        simp at hy
      | cons x rest =>
        simp only [List.cons_append, List.cons.injEq] at hsplit
        exact ih (fun z hz => hpre2 z (List.mem_cons_of_mem _ hz)) rest hsplit.2

theorem traced_build {σ : Type} (s : Service σ) (env : Env) (cmd : ProcessCommand) (st : σ)
    (log : List (Call × Option Error)) :
    ∃ calls,
      ProcessMessage.build s.traced env cmd (st, log) =
        ((ProcessMessage.build s env cmd st).1,
          ((ProcessMessage.build s env cmd st).2, log ++ calls)) ∧
      Surfaced calls (ProcessMessage.build s env cmd st).1 := by
  unfold ProcessMessage.build
  simp only [Service.traced]
  cases hres : ProcessMessage.resolve s.ruleRepo cmd.Message.TransType cmd.Message.Amounts [] with
  | error err => exact ⟨[], by simp, Surfaced.nil _⟩
  | ok entries =>
    rcases hgen : generateID env with ⟨id, _ | gerr⟩
    · simp only
      rcases hsave : s.voucherRepo.Save
          ⟨id, cmd.Message.ID, env.now1, entries, cmd.Message.Metadata⟩ st with ⟨_ | serr, st1⟩
      · simp only
        rcases hup : s.messages.Upsert
            ⟨cmd.Message.ID, cmd.Message.TransType, env.now2, id⟩ st1 with ⟨_ | uerr, st2⟩
        · refine ⟨[(Call.Save, none), (Call.Upsert, none)], by simp, Or.inl ?_⟩
          simp
        · exact ⟨[(Call.Save, none), (Call.Upsert, some uerr)], by simp,
            Surfaced.cons_ok _ _ _ (Surfaced.fail _ _)⟩
      · exact ⟨[(Call.Save, some serr)], by simp, Surfaced.fail _ _⟩
    · exact ⟨[], by simp, Surfaced.nil _⟩

end app

namespace app

theorem traced_regenerate {σ : Type} (s : Service σ) (env : Env) (cmd : ProcessCommand)
    (st : σ) (log : List (Call × Option Error)) :
    ∃ calls,
      ProcessMessage.regenerate s.traced env cmd (st, log) =
        ((ProcessMessage.regenerate s env cmd st).1,
          ((ProcessMessage.regenerate s env cmd st).2, log ++ calls)) ∧
      Surfaced calls (ProcessMessage.regenerate s env cmd st).1 := by
  unfold ProcessMessage.regenerate
  by_cases hr : cmd.Regenerate = true
  · simp only [hr, if_true]
    rcases hdel : s.voucherRepo.DeleteByMessageID cmd.Message.ID st with ⟨_ | derr, st1⟩
    · obtain ⟨calls, heq, hs⟩ := traced_build s env cmd st1
        (log ++ [(Call.DeleteByMessageID, none)])
      refine ⟨(Call.DeleteByMessageID, none) :: calls, ?_, Surfaced.cons_ok _ _ _ hs⟩
      simp only [Service.traced, hdel]
      simpa [Service.traced] using heq
    · exact ⟨[(Call.DeleteByMessageID, some derr)], by simp [Service.traced, hdel],
        Surfaced.fail _ _⟩
  · simp only [hr]
    exact traced_build s env cmd st log

theorem traced_process {σ : Type} (s : Service σ) (env : Env) (cmd : ProcessCommand)
    (st : σ) (log : List (Call × Option Error)) :
    ∃ calls,
      s.traced.ProcessMessage env cmd (st, log) =
        ((s.ProcessMessage env cmd st).1, ((s.ProcessMessage env cmd st).2, log ++ calls)) ∧
      Surfaced calls (s.ProcessMessage env cmd st).1 := by
  unfold Service.ProcessMessage
  cases hvalid : cmd.Message.Validate with
  | some err => exact ⟨[], by simp, Surfaced.nil _⟩
  | none =>
    simp only
    rcases hfind : s.messages.FindByID cmd.Message.ID st with ⟨⟨record, seen, _ | ferr⟩, st1⟩
    · by_cases hfast : (seen && !cmd.Regenerate) = true
      · rcases hvo : s.voucherRepo.FindByMessageID cmd.Message.ID st1 with
          ⟨⟨existing, found, _ | verr⟩, st2⟩
        · by_cases hfound : found = true
          · refine ⟨[(Call.FindByID, none), (Call.FindByMessageID, none)], ?_, Or.inl ?_⟩
            · simp [Service.traced, hfind, hfast, hvo, hfound]
            · simp
          · obtain ⟨calls, heq, hs⟩ := traced_regenerate s env cmd st2
              (log ++ [(Call.FindByID, none), (Call.FindByMessageID, none)])
            refine ⟨(Call.FindByID, none) :: (Call.FindByMessageID, none) :: calls, ?_, ?_⟩
            · simp only [Service.traced, hfind, hfast, hvo, hfound]
              simpa [Service.traced] using heq
            · simp only [hfast, hvo, hfound, if_true, if_false]
              exact Surfaced.cons_ok _ _ _ (Surfaced.cons_ok _ _ _ hs)
        · refine ⟨[(Call.FindByID, none), (Call.FindByMessageID, some verr)], ?_, ?_⟩
          · simp [Service.traced, hfind, hfast, hvo]
          · simp only [hfast, hvo, if_true]
            exact Surfaced.cons_ok _ _ _ (Surfaced.fail _ _)
      · obtain ⟨calls, heq, hs⟩ := traced_regenerate s env cmd st1
          (log ++ [(Call.FindByID, none)])
        refine ⟨(Call.FindByID, none) :: calls, ?_, ?_⟩
        · simp only [Service.traced, hfind, hfast]
          simpa [Service.traced] using heq
        · simp only [hfast, if_false]
          exact Surfaced.cons_ok _ _ _ hs
    · exact ⟨[(Call.FindByID, some ferr)], by simp [Service.traced, hfind], Surfaced.fail _ _⟩

end app

namespace app

theorem regenerate_save_failure {σ : Type} (s : Service σ) (env : Env) (cmd : ProcessCommand)
    (st : σ) (e : Error)
    (hflag : cmd.Regenerate = true)
    (hvalid : cmd.Message.Validate = none)
    (hresolved : ∀ line ∈ cmd.Message.Amounts,
      (s.ruleRepo.FindByKey ⟨cmd.Message.TransType, line.AmountType⟩).2 = none)
    (hrand : env.randErr = none)
    (hfind : (s.messages.FindByID cmd.Message.ID st).1.2.2 = none)
    (hdelete : (s.voucherRepo.DeleteByMessageID cmd.Message.ID
      (s.messages.FindByID cmd.Message.ID st).2).1 = none)
    (hsave : (s.voucherRepo.Save (builtVoucher s.ruleRepo env cmd.Message)
      (s.voucherRepo.DeleteByMessageID cmd.Message.ID
        (s.messages.FindByID cmd.Message.ID st).2).2).1 = some e) :
    s.ProcessMessage env cmd st =
      ((ProcessResult.zero, some e),
        (s.voucherRepo.Save (builtVoucher s.ruleRepo env cmd.Message)
          (s.voucherRepo.DeleteByMessageID cmd.Message.ID
            (s.messages.FindByID cmd.Message.ID st).2).2).2) := by
  have hres := resolve_ok s.ruleRepo cmd.Message.TransType cmd.Message.Amounts [] hresolved
  rcases hf : s.messages.FindByID cmd.Message.ID st with ⟨⟨record, seen, ferr⟩, st1⟩
  rw [hf] at hfind hdelete hsave
  simp only at hfind hdelete hsave
  subst hfind
  rcases hd : s.voucherRepo.DeleteByMessageID cmd.Message.ID st1 with ⟨derr, st2⟩
  rw [hd] at hdelete hsave
  simp only at hdelete hsave
  subst hdelete
  simp only [builtVoucher, generateID, hrand] at hsave
  rcases hs : s.voucherRepo.Save
      ⟨hex.EncodeToString ((List.range 16).map fun i => env.randBytes i % 256), cmd.Message.ID,
        env.now1, cmd.Message.Amounts.map (entryFor s.ruleRepo cmd.Message.TransType),
        cmd.Message.Metadata⟩ st2 with ⟨serr, st3⟩
  rw [hs] at hsave
  simp only at hsave
  subst hsave
  simp [Service.ProcessMessage, ProcessMessage.regenerate, ProcessMessage.build, hvalid, hf,
    hflag, hd, hres, generateID, hrand, builtVoucher, hs]

end app

/-- C13: for arbitrary `MessageStore` and `VoucherRepository` implementations, run with
every collaborator call traced (which changes neither the result nor the collaborator
state): if a collaborator call (`FindByID`, `FindByMessageID`, `DeleteByMessageID`, `Save`
or `Upsert`) returns error `e`, it is the last call made, so nothing is retried or
compensated, and `ProcessMessage` returns exactly `e` next to the empty result. In
particular when `Regenerate=true`, the message is valid and resolvable, the id is generated,
`FindByID` and `DeleteByMessageID` succeed and `Save` fails with `e`: `ProcessMessage`
returns `e`, the collaborators are left in the state produced by that failed `Save` on the
state produced by the delete, and the calls made are exactly `FindByID`,
`DeleteByMessageID`, `Save`, so no record is upserted. Hence, when the voucher repository
keeps its contract there (after the successful delete the id is not found, and the failed
`Save` leaves the lookup of the id as it was), `FindByMessageID` finds no voucher for the
message id after the call; and when the lookup, the delete and the failed `Save` leave what
the ledger returns for the id as it was, `FindByID` returns after the call what it returned
before. -/
theorem C13_storage_errors_surface {σ : Type} (s : app.Service σ) (env : app.Env)
    (cmd : app.ProcessCommand) (st : σ) :
    (s.traced.ProcessMessage env cmd (st, [])).1 = (s.ProcessMessage env cmd st).1 ∧
    (s.traced.ProcessMessage env cmd (st, [])).2.1 = (s.ProcessMessage env cmd st).2 ∧
    (∀ pre c e post,
      (s.traced.ProcessMessage env cmd (st, [])).2.2 = pre ++ (c, some e) :: post →
        post = [] ∧ (s.ProcessMessage env cmd st).1 = (app.ProcessResult.zero, some e)) ∧
    (∀ e, cmd.Regenerate = true → cmd.Message.Validate = none →
      (∀ line ∈ cmd.Message.Amounts,
        (s.ruleRepo.FindByKey ⟨cmd.Message.TransType, line.AmountType⟩).2 = none) →
      env.randErr = none →
      (s.messages.FindByID cmd.Message.ID st).1.2.2 = none →
      (s.voucherRepo.DeleteByMessageID cmd.Message.ID
        (s.messages.FindByID cmd.Message.ID st).2).1 = none →
      (s.voucherRepo.Save (app.builtVoucher s.ruleRepo env cmd.Message)
        (s.voucherRepo.DeleteByMessageID cmd.Message.ID
          (s.messages.FindByID cmd.Message.ID st).2).2).1 = some e →
      s.ProcessMessage env cmd st =
        ((app.ProcessResult.zero, some e),
          (s.voucherRepo.Save (app.builtVoucher s.ruleRepo env cmd.Message)
            (s.voucherRepo.DeleteByMessageID cmd.Message.ID
              (s.messages.FindByID cmd.Message.ID st).2).2).2) ∧
      (s.traced.ProcessMessage env cmd (st, [])).2.2 =
        [(app.Call.FindByID, none), (app.Call.DeleteByMessageID, none),
          (app.Call.Save, some e)] ∧
      ((s.voucherRepo.FindByMessageID cmd.Message.ID
          (s.voucherRepo.DeleteByMessageID cmd.Message.ID
            (s.messages.FindByID cmd.Message.ID st).2).2).1.2.1 = false →
        (s.voucherRepo.FindByMessageID cmd.Message.ID
          (s.voucherRepo.Save (app.builtVoucher s.ruleRepo env cmd.Message)
            (s.voucherRepo.DeleteByMessageID cmd.Message.ID
              (s.messages.FindByID cmd.Message.ID st).2).2).2).1 =
          (s.voucherRepo.FindByMessageID cmd.Message.ID
            (s.voucherRepo.DeleteByMessageID cmd.Message.ID
              (s.messages.FindByID cmd.Message.ID st).2).2).1 →
        (s.voucherRepo.FindByMessageID cmd.Message.ID
          (s.ProcessMessage env cmd st).2).1.2.1 = false) ∧
      ((s.messages.FindByID cmd.Message.ID (s.messages.FindByID cmd.Message.ID st).2).1 =
          (s.messages.FindByID cmd.Message.ID st).1 →
        (s.messages.FindByID cmd.Message.ID
          (s.voucherRepo.DeleteByMessageID cmd.Message.ID
            (s.messages.FindByID cmd.Message.ID st).2).2).1 =
          (s.messages.FindByID cmd.Message.ID (s.messages.FindByID cmd.Message.ID st).2).1 →
        (s.messages.FindByID cmd.Message.ID
          (s.voucherRepo.Save (app.builtVoucher s.ruleRepo env cmd.Message)
            (s.voucherRepo.DeleteByMessageID cmd.Message.ID
              (s.messages.FindByID cmd.Message.ID st).2).2).2).1 =
          (s.messages.FindByID cmd.Message.ID
            (s.voucherRepo.DeleteByMessageID cmd.Message.ID
              (s.messages.FindByID cmd.Message.ID st).2).2).1 →
        (s.messages.FindByID cmd.Message.ID (s.ProcessMessage env cmd st).2).1 =
          (s.messages.FindByID cmd.Message.ID st).1)) := by
  obtain ⟨calls, heq, hsurfaced⟩ := app.traced_process s env cmd st []
  rw [heq]
  refine ⟨rfl, rfl, ?_, ?_⟩
  · intro pre c e post hsplit
    exact app.Surfaced.first_failure calls _ hsurfaced pre post c e (by simpa using hsplit)
  · intro e hflag hvalid hresolved hrand hfind hdelete hsave
    have hplain := app.regenerate_save_failure s env cmd st e hflag hvalid hresolved hrand
      hfind hdelete hsave
    refine ⟨hplain, ?_, ?_, ?_⟩
    · rw [← heq, app.regenerate_save_failure s.traced env cmd (st, []) e hflag hvalid hresolved
        hrand hfind hdelete hsave]
      simp [app.Service.traced, hfind, hdelete, hsave]
    · intro hdeleted hkept
      rw [hplain]
      simp only
      rw [hkept]
      exact hdeleted
    · intro hread hdel hsv
      rw [hplain]
      simp only
      rw [hsv, hdel, hread]

/-- C13 instantiated: regenerating `m1` on the stores left by processing it, with a voucher
repository whose `Save` fails and stores nothing: the error is returned, no `Upsert` is
called, afterwards no voucher is found for `m1` and the ledger returns for `m1` what it
returned before. -/
theorem C13_storage_errors_surface_witness :
    (demo.failingSaveService.ProcessMessage demo.env2 ⟨demo.m1, true⟩ demo.afterM1).1 =
      (app.ProcessResult.zero, some (Error.other "voucher store unavailable")) ∧
    (demo.afterM1.voucherRepo.byMessageID "m1").isSome = true ∧
    (demo.failingSaveService.traced.ProcessMessage demo.env2 ⟨demo.m1, true⟩
      (demo.afterM1, [])).2.2 =
        [(app.Call.FindByID, none), (app.Call.DeleteByMessageID, none),
          (app.Call.Save, some (Error.other "voucher store unavailable"))] ∧
    (demo.failingSaveService.voucherRepo.FindByMessageID "m1"
      (demo.failingSaveService.ProcessMessage demo.env2 ⟨demo.m1, true⟩
        demo.afterM1).2).1.2.1 = false ∧
    (demo.failingSaveService.messages.FindByID "m1"
      (demo.failingSaveService.ProcessMessage demo.env2 ⟨demo.m1, true⟩ demo.afterM1).2).1 =
      (demo.failingSaveService.messages.FindByID "m1" demo.afterM1).1 :=
  ⟨by decide, by decide,
    ((C13_storage_errors_surface demo.failingSaveService demo.env2 ⟨demo.m1, true⟩
      demo.afterM1).2.2.2 (Error.other "voucher store unavailable") rfl (by decide)
      (by decide) (by decide) (by decide) (by decide) (by decide)).2.1,
    ((C13_storage_errors_surface demo.failingSaveService demo.env2 ⟨demo.m1, true⟩
      demo.afterM1).2.2.2 (Error.other "voucher store unavailable") rfl (by decide)
      (by decide) (by decide) (by decide) (by decide) (by decide)).2.2.1
        (by decide) (by decide),
    ((C13_storage_errors_surface demo.failingSaveService demo.env2 ⟨demo.m1, true⟩
      demo.afterM1).2.2.2 (Error.other "voucher store unavailable") rfl (by decide)
      (by decide) (by decide) (by decide) (by decide) (by decide)).2.2.2
        (by decide) (by decide) (by decide)⟩
